import Mathlib

/-!
# `get_user_activity` (pkg/github/users.go)

A shallow embedding of the `GetUserActivity` tool of the GitHub MCP server and of
the library behaviour it relies on.

Conventions of the embedding.

* Go `string` and `[]byte` values are Lean `String`s (the text is taken to be
  valid UTF-8, one `Char` per rune).
* A Go pointer that may be nil is an `Option`.
* A validation error is the text its `Error()` method returns; other Go
  `error` values are `GoError`s.
* The handler is a pure function that returns its outcome together with the
  ordered list of the external calls it made.
* A run that dereferences a nil pointer (a nil client, a nil element of the
  event slice) or calls a nil function ends in `Outcome.panicked`.
-/

namespace GithubMcp

/-! ## Library types: errors, context, mcp-go results and requests -/

/-- Go `error` values, as far as the handler tells them apart: an error handed
in by a collaborator (with its message), an error built by
`fmt.Errorf("<msg>: %w", cause)`, and the `*json.MarshalerError` that
`json.Marshal` returns when the `MarshalJSON` output of a value of Go type
`goType` is not valid JSON. -/
inductive GoError where
  | external (msg : String)
  | wrapped (msg : String) (cause : GoError)
  | jsonMarshaler (goType : String)
  deriving DecidableEq, Repr

deriving instance DecidableEq for Except

/-- Go `context.Context`: a token that is only passed along. -/
abbrev Context := Nat

/-- One content item of `mcp.CallToolResult` (`mcp.TextContent`). -/
structure TextContent where
  Type_ : String
  Text : String
  deriving DecidableEq, Repr

/-- The `mcp.CallToolResult` of mcp-go. -/
structure CallToolResult where
  Content : List TextContent
  IsError : Bool
  deriving DecidableEq, Repr

/-- The `mcp.NewToolResultText` constructor: one text item, not an error. -/
def NewToolResultText (text : String) : CallToolResult :=
  { Content := [{ Type_ := "text", Text := text }], IsError := false }

/-- The `mcp.NewToolResultError` constructor: one text item, flagged as error. -/
def NewToolResultError (text : String) : CallToolResult :=
  { Content := [{ Type_ := "text", Text := text }], IsError := true }

/-- A value of the `map[string]any` argument map of a tool call. JSON numbers
are represented by integers. -/
inductive ArgValue where
  | str (s : String)
  | num (n : Int)
  | bool (b : Bool)
  | null
  | other
  deriving DecidableEq, Repr

/-- The `mcp.CallToolRequest`: the argument map, as an association list. -/
structure CallToolRequest where
  Arguments : List (String × ArgValue)
  deriving DecidableEq, Repr

/-- Map lookup `r.GetArguments()[p]`. -/
def CallToolRequest.arg (r : CallToolRequest) (p : String) : Option ArgValue :=
  (r.Arguments.find? (fun kv => kv.1 == p)).map Prod.snd

/-! ## Library types: go-github -/

/-- The `time.Time` of Go, represented by what its `Date` and `Clock` methods
report in the time's own location, and the offset of that location from UTC in
seconds. `monthIdx` is the month minus one, `dayIdx` the day of month minus one. -/
structure Time where
  year : Int
  monthIdx : Fin 12
  dayIdx : Fin 31
  hour : Fin 24
  minute : Fin 60
  second : Fin 60
  offset : Int
  deriving DecidableEq, Repr

/-- The zero `time.Time`: January 1, year 1, 00:00:00 UTC. -/
def Time.zero : Time :=
  { year := 1, monthIdx := 0, dayIdx := 0, hour := 0, minute := 0, second := 0, offset := 0 }

/-- The `github.Timestamp` wrapper of go-github. -/
structure Timestamp where
  Time : Time
  deriving DecidableEq, Repr

/-- The fields of `github.User` the handler reads. -/
structure User where
  Login : Option String
  ID : Option Int
  AvatarURL : Option String
  URL : Option String
  deriving DecidableEq, Repr

/-- The fields of `github.Repository` the handler reads. -/
structure Repository where
  ID : Option Int
  Name : Option String
  URL : Option String
  deriving DecidableEq, Repr

/-- The fields of `github.Event` the handler reads. `RawPayload` is the
`*json.RawMessage`. -/
structure Event where
  ID : Option String
  Type_ : Option String
  Actor : Option User
  Repo : Option Repository
  CreatedAt : Option Timestamp
  RawPayload : Option String
  deriving DecidableEq, Repr

/-- Getter `(*Event).GetID` for a non-nil event. -/
def Event.GetID (e : Event) : String := e.ID.getD ""

/-- Getter `(*Event).GetType` for a non-nil event. -/
def Event.GetType (e : Event) : String := e.Type_.getD ""

/-- Getter `(*Event).GetCreatedAt` for a non-nil event: the zero timestamp when
the field is nil. -/
def Event.GetCreatedAt (e : Event) : Timestamp := e.CreatedAt.getD { Time := Time.zero }

/-- Getter `(*User).GetLogin`, safe on a nil receiver. -/
def User.GetLogin (u : Option User) : String := (u.bind (·.Login)).getD ""

/-- Getter `(*User).GetID`, safe on a nil receiver. -/
def User.GetID (u : Option User) : Int := (u.bind (·.ID)).getD 0

/-- Getter `(*User).GetAvatarURL`, safe on a nil receiver. -/
def User.GetAvatarURL (u : Option User) : String := (u.bind (·.AvatarURL)).getD ""

/-- Getter `(*User).GetURL`, safe on a nil receiver. -/
def User.GetURL (u : Option User) : String := (u.bind (·.URL)).getD ""

/-- Getter `(*Repository).GetID`, safe on a nil receiver. -/
def Repository.GetID (r : Option Repository) : Int := (r.bind (·.ID)).getD 0

/-- Getter `(*Repository).GetName`, safe on a nil receiver. -/
def Repository.GetName (r : Option Repository) : String := (r.bind (·.Name)).getD ""

/-- Getter `(*Repository).GetURL`, safe on a nil receiver. -/
def Repository.GetURL (r : Option Repository) : String := (r.bind (·.URL)).getD ""

/-- The `github.ListOptions` of go-github. -/
structure ListOptions where
  Page : Int
  PerPage : Int
  deriving DecidableEq, Repr

/-- The `github.Response` of go-github: the HTTP status code and the body
stream, represented by what `io.ReadAll(resp.Body)` yields. -/
structure Response where
  StatusCode : Int
  Body : Except GoError String
  deriving DecidableEq, Repr

/-- What `client.Activity.ListEventsPerformedByUser` returns: with a non-nil
error, the (possibly nil) response and the error; with a nil error, the slice
of event pointers and the non-nil response. -/
inductive ListResult where
  | failure (resp : Option Response) (err : GoError)
  | success (events : List (Option Event)) (resp : Response)
  deriving DecidableEq, Repr

/-- The `github.Client` of go-github, represented by the one operation used:
`Activity.ListEventsPerformedByUser(ctx, user, publicOnly, opts)`. -/
structure Client where
  ListEventsPerformedByUser : Context → String → Bool → ListOptions → ListResult

/-- The `GetClientFn` of the package: `func(context.Context) (*github.Client, error)`;
`none` is the nil function value. A call returns a non-nil error (`.error`),
or a nil error together with a client pointer, which may itself be nil
(`.ok none`). -/
abbrev GetClientFn := Option (Context → Except GoError (Option Client))

/-! ## Library behaviour: `time.Time.Format` -/

/-- The decimal digit character of `u`, Go's `'0' + byte(u)`. -/
def utod (u : Nat) : Char := Char.ofNat (48 + u)

/-- Go's `time.appendInt(b, x, width)`: the decimal text of `x`, zero-padded to
at least `width` digits, after a minus sign when `x` is negative. The two fast
paths of the Go function (width 2 below 100, width 4 below 10000) are kept. -/
def appendInt (x : Int) (width : Nat) : List Char :=
  let sign : List Char := if x < 0 then ['-'] else []
  let u : Nat := x.natAbs
  if width = 2 ∧ u < 100 then
    sign ++ [utod (u / 10), utod (u % 10)]
  else if width = 4 ∧ u < 10000 then
    sign ++ [utod (u / 1000), utod (u / 100 % 10), utod (u / 10 % 10), utod (u % 10)]
  else
    let digits := Nat.toDigits 10 u
    sign ++ List.replicate (width - digits.length) '0' ++ digits

/-- Go's `t.Format("2006-01-02T15:04:05Z")`. The layout is read by the library
as: `2006` the year padded to four digits, `01` the two-digit month, `02` the
two-digit day, `15` the two-digit hour (0 to 23), `04` the two-digit minute, `05`
the two-digit second; `-`, `T`, `:` and the final `Z` stand for themselves (a `Z`
is a zone directive only when `07` follows it). The fields are those of the
time's own location; the zone offset is not used. -/
def Time.Format (t : Time) : String :=
  String.mk (appendInt t.year 4 ++ ['-'] ++ appendInt (t.monthIdx.val + 1 : Nat) 2 ++ ['-']
    ++ appendInt (t.dayIdx.val + 1 : Nat) 2 ++ ['T'] ++ appendInt (t.hour.val : Nat) 2 ++ [':']
    ++ appendInt (t.minute.val : Nat) 2 ++ [':'] ++ appendInt (t.second.val : Nat) 2 ++ ['Z'])

/-! ## Library behaviour: `encoding/json` -/

/-- The lower-case hexadecimal digit of `n` (Go's `hex[n]`). -/
def hexDigit (n : Nat) : Char :=
  if n < 10 then Char.ofNat (48 + n) else Char.ofNat (87 + n)

/-- One rune of Go's `appendString` with HTML escaping on: the text written for
the rune `c` inside a JSON string literal. -/
def appendStringRune (c : Char) : List Char :=
  if c = '"' then ['\\', '"']
  else if c = '\\' then ['\\', '\\']
  else if c.toNat = 8 then ['\\', 'b']
  else if c.toNat = 12 then ['\\', 'f']
  else if c = '\n' then ['\\', 'n']
  else if c = '\r' then ['\\', 'r']
  else if c = '\t' then ['\\', 't']
  else if c.toNat < 32 ∨ c = '<' ∨ c = '>' ∨ c = '&' then
    ['\\', 'u', '0', '0', hexDigit (c.toNat / 16), hexDigit (c.toNat % 16)]
  else if c.toNat = 0x2028 ∨ c.toNat = 0x2029 then
    ['\\', 'u', '2', '0', '2', hexDigit (c.toNat % 16)]
  else [c]

/-- Go's `appendString(dst, s, true)`: the JSON string literal for `s`. -/
def appendString (s : String) : List Char :=
  ['"'] ++ (s.data.map appendStringRune).flatten ++ ['"']

/-- Go's `strconv.AppendInt(dst, n, 10)`, the JSON text of an `int64`. -/
def appendInt64 (n : Int) : List Char :=
  (if n < 0 then ['-'] else []) ++ Nat.toDigits 10 n.natAbs

/-- The step functions of the `scanner` of `encoding/json` (scanner.go), one
constructor per Go function `stateXxx`. -/
inductive ScanState where
  | stateBeginValueOrEmpty | stateBeginValue | stateBeginStringOrEmpty | stateBeginString
  | stateEndValue | stateEndTop
  | stateInString | stateInStringEsc | stateInStringEscU | stateInStringEscU1
  | stateInStringEscU12 | stateInStringEscU123
  | stateNeg | state1 | state0 | stateDot | stateDot0 | stateE | stateESign | stateE0
  | stateT | stateTr | stateTru | stateF | stateFa | stateFal | stateFals
  | stateN | stateNu | stateNul
  | stateError
  deriving DecidableEq, Repr

/-- The scan codes a step function returns, in the order of the Go constants. -/
inductive ScanCode where
  | scanContinue | scanBeginLiteral | scanBeginObject | scanObjectKey | scanObjectValue
  | scanEndObject | scanBeginArray | scanArrayValue | scanEndArray | scanSkipSpace
  | scanEnd | scanError
  deriving DecidableEq, Repr

/-- The Go test `v >= scanSkipSpace`. -/
def ScanCode.geSkipSpace : ScanCode → Bool
  | .scanSkipSpace | .scanEnd | .scanError => true
  | _ => false

/-- The entries of the scanner's parse-state stack. -/
inductive ParseState where
  | parseObjectKey | parseObjectValue | parseArrayValue
  deriving DecidableEq, Repr

/-- The nesting limit of the scanner. -/
def maxNestingDepth : Nat := 10000

/-- The `scanner` of `encoding/json`: the current step function, the `endTop`
flag, the parse-state stack (innermost entry first) and whether `err` is set. -/
structure Scanner where
  step : ScanState
  endTop : Bool
  parseState : List ParseState
  err : Bool
  deriving DecidableEq, Repr

/-- A scanner after `reset`. -/
def Scanner.reset : Scanner :=
  { step := .stateBeginValue, endTop := false, parseState := [], err := false }

/-- The scanner's `error` method: record the error and return `scanError`. -/
def Scanner.error (s : Scanner) : Scanner × ScanCode :=
  ({ s with step := .stateError, err := true }, .scanError)

/-- Go's `isSpace`. -/
def isSpace (c : Char) : Bool := c = ' ' || c = '\t' || c = '\r' || c = '\n'

/-- The scanner's `pushParseState`. -/
def Scanner.pushParseState (s : Scanner) (newParseState : ParseState) (successState : ScanCode) :
    Scanner × ScanCode :=
  let s1 := { s with parseState := newParseState :: s.parseState }
  if s1.parseState.length ≤ maxNestingDepth then (s1, successState) else s1.error

/-- The scanner's `popParseState`. -/
def Scanner.popParseState (s : Scanner) : Scanner :=
  let rest := s.parseState.tail
  if rest.length = 0 then { s with parseState := rest, step := .stateEndTop, endTop := true }
  else { s with parseState := rest, step := .stateEndValue }

/-- Go's `stateEndTop`: a non-space byte after the top-level value records an
error; the code returned is `scanEnd` either way. -/
def stateEndTop (s : Scanner) (c : Char) : Scanner × ScanCode :=
  if !isSpace c then (s.error.1, .scanEnd) else (s, .scanEnd)

/-- Go's `stateEndValue`. -/
def stateEndValue (s : Scanner) (c : Char) : Scanner × ScanCode :=
  match s.parseState with
  | [] => stateEndTop { s with step := .stateEndTop, endTop := true } c
  | ps :: rest =>
    if isSpace c then ({ s with step := .stateEndValue }, .scanSkipSpace)
    else match ps with
      | .parseObjectKey =>
        if c = ':' then
          ({ s with parseState := .parseObjectValue :: rest, step := .stateBeginValue },
            .scanObjectKey)
        else s.error
      | .parseObjectValue =>
        if c = ',' then
          ({ s with parseState := .parseObjectKey :: rest, step := .stateBeginString },
            .scanObjectValue)
        else if c = '}' then (s.popParseState, .scanEndObject)
        else s.error
      | .parseArrayValue =>
        if c = ',' then ({ s with step := .stateBeginValue }, .scanArrayValue)
        else if c = ']' then (s.popParseState, .scanEndArray)
        else s.error

/-- Go's `stateBeginValue`. -/
def stateBeginValue (s : Scanner) (c : Char) : Scanner × ScanCode :=
  if isSpace c then (s, .scanSkipSpace)
  else if c = '{' then
    Scanner.pushParseState { s with step := .stateBeginStringOrEmpty } .parseObjectKey
      .scanBeginObject
  else if c = '[' then
    Scanner.pushParseState { s with step := .stateBeginValueOrEmpty } .parseArrayValue
      .scanBeginArray
  else if c = '"' then ({ s with step := .stateInString }, .scanBeginLiteral)
  else if c = '-' then ({ s with step := .stateNeg }, .scanBeginLiteral)
  else if c = '0' then ({ s with step := .state0 }, .scanBeginLiteral)
  else if c = 't' then ({ s with step := .stateT }, .scanBeginLiteral)
  else if c = 'f' then ({ s with step := .stateF }, .scanBeginLiteral)
  else if c = 'n' then ({ s with step := .stateN }, .scanBeginLiteral)
  else if '1' ≤ c ∧ c ≤ '9' then ({ s with step := .state1 }, .scanBeginLiteral)
  else s.error

/-- Go's `stateBeginValueOrEmpty`. -/
def stateBeginValueOrEmpty (s : Scanner) (c : Char) : Scanner × ScanCode :=
  if isSpace c then (s, .scanSkipSpace)
  else if c = ']' then stateEndValue s c
  else stateBeginValue s c

/-- Go's `stateBeginString`. -/
def stateBeginString (s : Scanner) (c : Char) : Scanner × ScanCode :=
  if isSpace c then (s, .scanSkipSpace)
  else if c = '"' then ({ s with step := .stateInString }, .scanBeginLiteral)
  else s.error

/-- Go's `stateBeginStringOrEmpty`. -/
def stateBeginStringOrEmpty (s : Scanner) (c : Char) : Scanner × ScanCode :=
  if isSpace c then (s, .scanSkipSpace)
  else if c = '}' then
    stateEndValue { s with parseState := .parseObjectValue :: s.parseState.tail } c
  else stateBeginString s c

/-- Whether `c` is a hexadecimal digit, as tested by the `stateInStringEscU`
family. -/
def isHex (c : Char) : Bool :=
  ('0' ≤ c ∧ c ≤ '9') || ('a' ≤ c ∧ c ≤ 'f') || ('A' ≤ c ∧ c ≤ 'F')

/-- Whether `c` is a decimal digit. -/
def isDigit (c : Char) : Bool := '0' ≤ c ∧ c ≤ '9'

/-- Go's `stateInString`. -/
def stateInString (s : Scanner) (c : Char) : Scanner × ScanCode :=
  if c = '"' then ({ s with step := .stateEndValue }, .scanContinue)
  else if c = '\\' then ({ s with step := .stateInStringEsc }, .scanContinue)
  else if c.toNat < 0x20 then s.error
  else (s, .scanContinue)

/-- Go's `stateInStringEsc`. -/
def stateInStringEsc (s : Scanner) (c : Char) : Scanner × ScanCode :=
  if c = 'b' ∨ c = 'f' ∨ c = 'n' ∨ c = 'r' ∨ c = 't' ∨ c = '\\' ∨ c = '/' ∨ c = '"' then
    ({ s with step := .stateInString }, .scanContinue)
  else if c = 'u' then ({ s with step := .stateInStringEscU }, .scanContinue)
  else s.error

/-- The four Go functions `stateInStringEscU`, `...U1`, `...U12`, `...U123`:
a hexadecimal digit moves to `next`. -/
def stateInStringEscHex (next : ScanState) (s : Scanner) (c : Char) : Scanner × ScanCode :=
  if isHex c then ({ s with step := next }, .scanContinue) else s.error

/-- Go's `state0`. -/
def state0 (s : Scanner) (c : Char) : Scanner × ScanCode :=
  if c = '.' then ({ s with step := .stateDot }, .scanContinue)
  else if c = 'e' ∨ c = 'E' then ({ s with step := .stateE }, .scanContinue)
  else stateEndValue s c

/-- Go's `state1`. -/
def state1 (s : Scanner) (c : Char) : Scanner × ScanCode :=
  if isDigit c then ({ s with step := .state1 }, .scanContinue) else state0 s c

/-- Go's `stateNeg`. -/
def stateNeg (s : Scanner) (c : Char) : Scanner × ScanCode :=
  if c = '0' then ({ s with step := .state0 }, .scanContinue)
  else if '1' ≤ c ∧ c ≤ '9' then ({ s with step := .state1 }, .scanContinue)
  else s.error

/-- Go's `stateDot`. -/
def stateDot (s : Scanner) (c : Char) : Scanner × ScanCode :=
  if isDigit c then ({ s with step := .stateDot0 }, .scanContinue) else s.error

/-- Go's `stateDot0`. -/
def stateDot0 (s : Scanner) (c : Char) : Scanner × ScanCode :=
  if isDigit c then (s, .scanContinue)
  else if c = 'e' ∨ c = 'E' then ({ s with step := .stateE }, .scanContinue)
  else stateEndValue s c

/-- Go's `stateESign`. -/
def stateESign (s : Scanner) (c : Char) : Scanner × ScanCode :=
  if isDigit c then ({ s with step := .stateE0 }, .scanContinue) else s.error

/-- Go's `stateE`. -/
def stateE (s : Scanner) (c : Char) : Scanner × ScanCode :=
  if c = '+' ∨ c = '-' then ({ s with step := .stateESign }, .scanContinue)
  else stateESign s c

/-- Go's `stateE0`. -/
def stateE0 (s : Scanner) (c : Char) : Scanner × ScanCode :=
  if isDigit c then (s, .scanContinue) else stateEndValue s c

/-- The Go functions inside the literals `true`, `false` and `null` that expect
the letter `want` and move to `next` (`stateT`, `stateTr`, `stateF`, `stateFa`,
`stateFal`, `stateN`, `stateNu`). -/
def stateLetter (want : Char) (next : ScanState) (s : Scanner) (c : Char) :
    Scanner × ScanCode :=
  if c = want then ({ s with step := next }, .scanContinue) else s.error

/-- The scanner's `step` field applied to the byte `c`. -/
def Scanner.stepFn (s : Scanner) (c : Char) : Scanner × ScanCode :=
  match s.step with
  | .stateBeginValueOrEmpty => stateBeginValueOrEmpty s c
  | .stateBeginValue => stateBeginValue s c
  | .stateBeginStringOrEmpty => stateBeginStringOrEmpty s c
  | .stateBeginString => stateBeginString s c
  | .stateEndValue => stateEndValue s c
  | .stateEndTop => stateEndTop s c
  | .stateInString => stateInString s c
  | .stateInStringEsc => stateInStringEsc s c
  | .stateInStringEscU => stateInStringEscHex .stateInStringEscU1 s c
  | .stateInStringEscU1 => stateInStringEscHex .stateInStringEscU12 s c
  | .stateInStringEscU12 => stateInStringEscHex .stateInStringEscU123 s c
  | .stateInStringEscU123 => stateInStringEscHex .stateInString s c
  | .stateNeg => stateNeg s c
  | .state1 => state1 s c
  | .state0 => state0 s c
  | .stateDot => stateDot s c
  | .stateDot0 => stateDot0 s c
  | .stateE => stateE s c
  | .stateESign => stateESign s c
  | .stateE0 => stateE0 s c
  | .stateT => stateLetter 'r' .stateTr s c
  | .stateTr => stateLetter 'u' .stateTru s c
  | .stateTru => stateLetter 'e' .stateEndValue s c
  | .stateF => stateLetter 'a' .stateFa s c
  | .stateFa => stateLetter 'l' .stateFal s c
  | .stateFal => stateLetter 's' .stateFals s c
  | .stateFals => stateLetter 'e' .stateEndValue s c
  | .stateN => stateLetter 'u' .stateNu s c
  | .stateNu => stateLetter 'l' .stateNul s c
  | .stateNul => stateLetter 'l' .stateEndValue s c
  | .stateError => (s, .scanError)

/-- The scanner's `eof` method, reduced to whether it returns `scanError`. -/
def Scanner.eofIsError (s : Scanner) : Bool :=
  if s.err then true
  else if s.endTop then false
  else !(s.stepFn ' ').1.endTop

/-- The text `appendCompact` writes in place of `c` when HTML escaping is on:
`<`, `>`, `&` become `\u003c`, `\u003e`, `\u0026`, and U+2028, U+2029 become
`\u2028`, `\u2029`. -/
def compactEscape (c : Char) : Option (List Char) :=
  if c = '<' ∨ c = '>' ∨ c = '&' then
    some ['\\', 'u', '0', '0', hexDigit (c.toNat / 16), hexDigit (c.toNat % 16)]
  else if c.toNat = 0x2028 ∨ c.toNat = 0x2029 then
    some ['\\', 'u', '2', '0', '2', hexDigit (c.toNat % 16)]
  else none

/-- The loop of Go's `appendCompact(dst, src, true)`: each byte is first
replaced by its escape if it has one, then fed to the scanner; the loop stops at
`scanError`, and a byte for which the scanner answers `scanSkipSpace` or
`scanEnd` is left out of the output. Returns the scanner and the output. -/
def compactLoop : Scanner → List Char → List Char → Scanner × List Char
  | s, out, [] => (s, out)
  | s, out, c :: rest =>
    let r := s.stepFn c
    if r.2 = .scanError then (r.1, out)
    else
      match compactEscape c with
      | some e => compactLoop r.1 (out ++ e) rest
      | none => compactLoop r.1 (if r.2.geSkipSpace then out else out ++ [c]) rest

/-- Go's `appendCompact(nil, src, true)`: `none` when the scanner reports a
syntax error, otherwise the compacted text. -/
def appendCompact (src : String) : Option String :=
  let r := compactLoop Scanner.reset [] src.data
  if r.1.eofIsError then none else some (String.mk r.2)

/-! ## The package's output types and their JSON encoding -/

/-- The `MinimalUser` of the package (declared outside users.go); the fields
are those the handler sets in its composite literal. -/
structure MinimalUser where
  Login : String
  ID : Int
  AvatarURL : String
  ProfileURL : String
  deriving DecidableEq, Repr

/-- The `MinimalRepo` of users.go. -/
structure MinimalRepo where
  ID : Int
  Name : String
  URL : String
  deriving DecidableEq, Repr

/-- The `MinimalEvent` of users.go. `Payload` is the `json.RawMessage`, `none`
when it is the nil slice. -/
structure MinimalEvent where
  ID : String
  Type_ : String
  Actor : Option MinimalUser
  Repo : Option MinimalRepo
  CreatedAt : String
  Payload : Option String
  deriving DecidableEq, Repr

/-- The members of an encoded JSON object, in the order written: each name with
the JSON text of its value. -/
abbrev JSONMembers := List (String × String)

/-- The text of a JSON object as the struct encoder of `encoding/json` writes
it: the members `"name":value` separated by commas, between braces. -/
def renderObject (ms : JSONMembers) : String :=
  "\x7b" ++ ",".intercalate (ms.map (fun m => String.mk (appendString m.1) ++ ":" ++ m.2))
    ++ "\x7d"

/-- The text of a JSON array: the elements separated by commas, between
brackets. -/
def renderArray (elems : List String) : String :=
  "[" ++ ",".intercalate elems ++ "]"

/-- The members `json.Marshal` writes for a `MinimalRepo`, following its
struct tags `id`, `name`, `url`. -/
def MinimalRepo.members (r : MinimalRepo) : JSONMembers :=
  [("id", String.mk (appendInt64 r.ID)), ("name", String.mk (appendString r.Name)),
    ("url", String.mk (appendString r.URL))]

/-- The members `json.Marshal` writes for the fields of a `MinimalEvent` that
are always written, following the struct tags `id`, `type`, `actor`, `repo`,
`created_at`. `marshalUser` is the JSON encoding of a `MinimalUser`, whose
struct tags are declared outside users.go. A nil pointer is written as `null`. -/
def MinimalEvent.fixedMembers (marshalUser : MinimalUser → String) (me : MinimalEvent) :
    JSONMembers :=
  [("id", String.mk (appendString me.ID)),
   ("type", String.mk (appendString me.Type_)),
   ("actor", match me.Actor with
      | none => "null"
      | some u => marshalUser u),
   ("repo", match me.Repo with
      | none => "null"
      | some r => renderObject r.members),
   ("created_at", String.mk (appendString me.CreatedAt))]

/-- The members `json.Marshal` writes for a `MinimalEvent`. The `payload` member
is tagged `omitempty`: it is left out when the raw message has length zero;
otherwise its bytes go through `appendCompact`, and `json.Marshal` fails when
they are not valid JSON. -/
def MinimalEvent.members (marshalUser : MinimalUser → String) (me : MinimalEvent) :
    Except GoError JSONMembers :=
  match me.Payload with
  | none => .ok (me.fixedMembers marshalUser)
  | some p =>
    if p.length = 0 then .ok (me.fixedMembers marshalUser)
    else
      match appendCompact p with
      | none => .error (.jsonMarshaler "json.RawMessage")
      | some v => .ok (me.fixedMembers marshalUser ++ [("payload", v)])

/-- The objects `json.Marshal` encodes for a slice of `MinimalEvent`, in order;
the first element that fails to encode fails the whole call. -/
def encodeEvents (marshalUser : MinimalUser → String) :
    List MinimalEvent → Except GoError (List JSONMembers)
  | [] => .ok []
  | me :: rest =>
    match me.members marshalUser with
    | .error e => .error e
    | .ok ms =>
      match encodeEvents marshalUser rest with
      | .error e => .error e
      | .ok objs => .ok (ms :: objs)

/-- Go's `json.Marshal(minimalEvents)` for the non-nil slice the handler
builds: a JSON array of the encoded objects. -/
def jsonMarshal (marshalUser : MinimalUser → String) (minimalEvents : List MinimalEvent) :
    Except GoError String :=
  match encodeEvents marshalUser minimalEvents with
  | .error e => .error e
  | .ok objs => .ok (renderArray (objs.map renderObject))

/-! ## Library behaviour: mcp-go tool definitions -/

/-- Go map assignment `m[k] = v` on an association list. -/
def mapSet {α : Type} (m : List (String × α)) (k : String) (v : α) : List (String × α) :=
  if m.any (fun kv => kv.1 == k) then m.map (fun kv => if kv.1 == k then (k, v) else kv)
  else m ++ [(k, v)]

/-- Go map lookup `m[k]` on an association list. -/
def mapGet {α : Type} (m : List (String × α)) (k : String) : Option α :=
  (m.find? (fun kv => kv.1 == k)).map Prod.snd

/-- Go `delete(m, k)` on an association list. -/
def mapDelete {α : Type} (m : List (String × α)) (k : String) : List (String × α) :=
  m.filter (fun kv => !(kv.1 == k))

/-- The JSON-schema map of one property (`map[string]any`). -/
abbrev PropertySchema := List (String × ArgValue)

/-- The `mcp.ToolInputSchema` of mcp-go. -/
structure ToolInputSchema where
  Type_ : String
  Properties : List (String × PropertySchema)
  Required : List String
  deriving DecidableEq, Repr

/-- The `mcp.ToolAnnotation` of mcp-go; the hints are `*bool`. -/
structure ToolAnnotation where
  Title : String
  ReadOnlyHint : Option Bool
  DestructiveHint : Option Bool
  IdempotentHint : Option Bool
  OpenWorldHint : Option Bool
  deriving DecidableEq, Repr

/-- The `mcp.Tool` of mcp-go. -/
structure Tool where
  Name : String
  Description : String
  InputSchema : ToolInputSchema
  Annotations : ToolAnnotation
  deriving DecidableEq, Repr

/-- The `mcp.ToolOption` of mcp-go: `func(*Tool)`. -/
abbrev ToolOption := Tool → Tool

/-- The `mcp.PropertyOption` of mcp-go: `func(map[string]any)`. -/
abbrev PropertyOption := PropertySchema → PropertySchema

/-- The `mcp.NewTool` constructor: the default tool, then the options in order. -/
def NewTool (name : String) (opts : List ToolOption) : Tool :=
  opts.foldl (fun tool opt => opt tool)
    { Name := name
      Description := ""
      InputSchema := { Type_ := "object", Properties := [], Required := [] }
      Annotations :=
        { Title := "", ReadOnlyHint := some false, DestructiveHint := some true,
          IdempotentHint := some false, OpenWorldHint := some true } }

/-- The `mcp.WithDescription` option. -/
def WithDescription (description : String) : ToolOption :=
  fun t => { t with Description := description }

/-- The `mcp.WithToolAnnotation` option. -/
def WithToolAnnotation (ann : ToolAnnotation) : ToolOption :=
  fun t => { t with Annotations := ann }

/-- The `mcp.Required` property option. -/
def Required : PropertyOption := fun schema => mapSet schema "required" (.bool true)

/-- The `mcp.Description` property option. -/
def Description (desc : String) : PropertyOption :=
  fun schema => mapSet schema "description" (.str desc)

/-- The body shared by `mcp.WithString` and `mcp.WithNumber`: build the schema
of a property of JSON type `ty`, apply the property options, move a `required`
mark from the property schema to the tool's list of required names, and store
the schema under `name`. -/
def withProperty (ty : String) (name : String) (opts : List PropertyOption) : ToolOption :=
  fun t =>
    let schema := opts.foldl (fun sch opt => opt sch) [("type", ArgValue.str ty)]
    if mapGet schema "required" = some (.bool true) then
      { t with InputSchema :=
          { t.InputSchema with
            Required := t.InputSchema.Required ++ [name]
            Properties := mapSet t.InputSchema.Properties name (mapDelete schema "required") } }
    else
      { t with InputSchema :=
          { t.InputSchema with Properties := mapSet t.InputSchema.Properties name schema } }

/-- The `mcp.WithString` option. -/
def WithString (name : String) (opts : List PropertyOption) : ToolOption :=
  withProperty "string" name opts

/-- The `mcp.WithNumber` option. -/
def WithNumber (name : String) (opts : List PropertyOption) : ToolOption :=
  withProperty "number" name opts

/-! ## Collaborators of the package that users.go calls -/

/-- Modelled from the spec: `ToBoolPtr`, declared outside users.go, yields the
pointer through which the read-only flag is declared to the framework: a
non-nil pointer to the given boolean. -/
def ToBoolPtr (b : Bool) : Option Bool := some b

/-- Modelled from the spec: `WithPagination`, declared outside users.go, adds
the standard pagination parameters `page` and `perPage` of section 6 as
optional numeric properties. -/
def WithPagination : ToolOption :=
  fun t => WithNumber "perPage" [] (WithNumber "page" [] t)

/-- The `PaginationParams` of the package, as far as the handler reads them. -/
structure PaginationParams where
  Page : Int
  PerPage : Int
  deriving DecidableEq, Repr

/-- The functions of the package that the handler calls and that are declared
outside users.go.

* `RequiredParam` is `RequiredParam[string]`: the parameter value, or the
  message of the validation error.
* `OptionalPaginationParams`: the pagination values, or the message of the
  validation error.
* `NewGitHubAPIErrorResponse` is the constructor of package `errors`, given the
  context, the message, the response (possibly nil) and the cause.
* `marshalMinimalUser` is the JSON encoding of `MinimalUser`. -/
structure Helpers where
  RequiredParam : CallToolRequest → String → Except String String
  OptionalPaginationParams : CallToolRequest → Except String PaginationParams
  NewGitHubAPIErrorResponse : Context → String → Option Response → GoError → CallToolResult
  marshalMinimalUser : MinimalUser → String

/-! ## users.go: the handler -/

/-- The external calls a run of the handler makes. -/
inductive Effect where
  | getClient (ctx : Context)
  | listEventsPerformedByUser (ctx : Context) (user : String) (publicOnly : Bool)
      (opts : ListOptions)
  | readAll
  | jsonMarshal
  | bodyClose
  deriving DecidableEq, Repr

/-- How a run of the handler ends: it returns the pair `(*mcp.CallToolResult,
error)`, or it panics. -/
inductive Outcome where
  | returned (result : Option CallToolResult) (err : Option GoError)
  | panicked
  deriving DecidableEq, Repr

/-- A run of the handler: its outcome and the external calls it made, in order. -/
structure Run where
  outcome : Outcome
  trace : List Effect
  deriving DecidableEq, Repr

/-- The `MinimalEvent` built from a non-nil event in the body of the
`for _, event := range events` loop of users.go (lines 85 to 105): the composite
literal, then the payload copied when `event.RawPayload != nil`. -/
def minimalEventOf (event : Event) : MinimalEvent :=
  { ID := event.GetID
    Type_ := event.GetType
    Actor := some
      { Login := User.GetLogin event.Actor
        ID := User.GetID event.Actor
        AvatarURL := User.GetAvatarURL event.Actor
        ProfileURL := User.GetURL event.Actor }
    Repo := some
      { ID := Repository.GetID event.Repo
        Name := Repository.GetName event.Repo
        URL := Repository.GetURL event.Repo }
    CreatedAt := event.GetCreatedAt.Time.Format
    Payload :=
      match event.RawPayload with
      | none => none
      | some raw => some raw }

/-- One iteration of the loop on an element of the slice. On a nil element the
field access `event.Actor` panics: the result is `none`. -/
def projectEvent : Option Event → Option MinimalEvent
  | none => none
  | some event => some (minimalEventOf event)

/-- The loop of users.go (lines 83 to 108): the projections of the events in
the order received, or `none` when the loop panics. -/
def projectEvents : List (Option Event) → Option (List MinimalEvent)
  | [] => some []
  | event :: rest =>
    match projectEvent event with
    | none => none
    | some me =>
      match projectEvents rest with
      | none => none
      | some mes => some (me :: mes)

/-- The handler returned by `GetUserActivity` (users.go, lines 45 to 116). -/
def handler (h : Helpers) (getClient : GetClientFn) (ctx : Context)
    (request : CallToolRequest) : Run :=
  match h.RequiredParam request "username" with
  | .error err => { outcome := .returned (some (NewToolResultError err)) none, trace := [] }
  | .ok username =>
  match h.OptionalPaginationParams request with
  | .error err => { outcome := .returned (some (NewToolResultError err)) none, trace := [] }
  | .ok pagination =>
  let opts : ListOptions := { PerPage := pagination.PerPage, Page := pagination.Page }
  match getClient with
  | none => { outcome := .panicked, trace := [] }
  | some provider =>
  match provider ctx with
  | .error err =>
    { outcome := .returned none (some (.wrapped "failed to get GitHub client" err))
      trace := [.getClient ctx] }
  | .ok none => { outcome := .panicked, trace := [.getClient ctx] }
  | .ok (some client) =>
  let called : List Effect :=
    [.getClient ctx, .listEventsPerformedByUser ctx username false opts]
  match client.ListEventsPerformedByUser ctx username false opts with
  | .failure resp err =>
    { outcome := .returned
        (some (h.NewGitHubAPIErrorResponse ctx
          ("failed to get activity for user '" ++ username ++ "'") resp err)) none
      trace := called }
  | .success events resp =>
  if resp.StatusCode ≠ 200 then
    match resp.Body with
    | .error err =>
      { outcome := .returned none (some (.wrapped "failed to read response body" err))
        trace := called ++ [.readAll, .bodyClose] }
    | .ok body =>
      { outcome := .returned
          (some (NewToolResultError ("failed to get user activity: " ++ body))) none
        trace := called ++ [.readAll, .bodyClose] }
  else
    match projectEvents events with
    | none => { outcome := .panicked, trace := called ++ [.bodyClose] }
    | some minimalEvents =>
      match jsonMarshal h.marshalMinimalUser minimalEvents with
      | .error err =>
        { outcome := .returned none (some (.wrapped "failed to marshal response" err))
          trace := called ++ [.jsonMarshal, .bodyClose] }
      | .ok r =>
        { outcome := .returned (some (NewToolResultText r)) none
          trace := called ++ [.jsonMarshal, .bodyClose] }

/-- The tool definition built by `GetUserActivity` (users.go, lines 33 to 44). -/
def tool (t : String → String → String) : Tool :=
  NewTool "get_user_activity"
    [ WithDescription (t "TOOL_GET_USER_ACTIVITY_DESCRIPTION"
        "Get recent activity for a GitHub user. Returns a list of events performed by the user."),
      WithToolAnnotation
        { Title := t "TOOL_GET_USER_ACTIVITY_USER_TITLE" "Get user activity"
          ReadOnlyHint := ToBoolPtr true
          DestructiveHint := none
          IdempotentHint := none
          OpenWorldHint := none },
      WithString "username" [Required, Description "The GitHub username to get activity for."],
      WithPagination ]

/-- The function `GetUserActivity` of users.go: the tool and its handler. -/
def GetUserActivity (h : Helpers) (getClient : GetClientFn) (t : String → String → String) :
    Tool × (Context → CallToolRequest → Run) :=
  (tool t, handler h getClient)

/-! ## The validation helpers, as the spec describes them -/

/-- Modelled from the spec: `RequiredParam[string]`, declared outside users.go.
Section 4.1: the parameter is a required string and the call fails with a local
validation error "if absent or wrong type"; section 3: the value is non-empty;
section 7: the error names the missing or invalid field. -/
def RequiredParam (r : CallToolRequest) (p : String) : Except String String :=
  match r.arg p with
  | none => .error ("missing required parameter: " ++ p)
  | some (.str v) =>
    if v = "" then .error ("missing required parameter: " ++ p) else .ok v
  | some _ => .error ("parameter " ++ p ++ " is not of type string")

/-- Modelled from the spec: an optional integer parameter of the pagination
helper: the default when absent, the value when it is a number, a validation
error naming the field when it is malformed. -/
def optionalIntParam (r : CallToolRequest) (p : String) (d : Int) : Except String Int :=
  match r.arg p with
  | none => .ok d
  | some (.num n) => .ok n
  | some _ => .error ("parameter " ++ p ++ " is not a number")

/-- Modelled from the spec: `OptionalPaginationParams`, declared outside
users.go. Sections 3, 4.1 and 6: `page` and `perPage` are optional integers
whose defaults the pagination policy sets (`defaults`); if malformed the call
fails with a validation error. -/
def OptionalPaginationParams (defaults : PaginationParams) (r : CallToolRequest) :
    Except String PaginationParams :=
  match optionalIntParam r "page" defaults.Page with
  | .error e => .error e
  | .ok page =>
    match optionalIntParam r "perPage" defaults.PerPage with
    | .error e => .error e
    | .ok perPage => .ok { Page := page, PerPage := perPage }

/-- The collaborators with the two validation helpers as the spec describes
them; the pagination defaults, the API-error constructor and the `MinimalUser`
encoding stay parameters. -/
def specHelpers (defaults : PaginationParams)
    (apiError : Context → String → Option Response → GoError → CallToolResult)
    (marshalUser : MinimalUser → String) : Helpers :=
  { RequiredParam := RequiredParam
    OptionalPaginationParams := OptionalPaginationParams defaults
    NewGitHubAPIErrorResponse := apiError
    marshalMinimalUser := marshalUser }

/-- The request has no `username` argument, or one that is not a string. -/
def usernameAbsentOrNotString (r : CallToolRequest) : Bool :=
  match r.arg "username" with
  | none => true
  | some (.str _) => false
  | some _ => true

/-- The argument `p` is present and is not a number. -/
def malformedInt (r : CallToolRequest) (p : String) : Bool :=
  match r.arg p with
  | none => false
  | some (.num _) => false
  | some _ => true

/-- One of the pagination parameters `page`, `perPage` is malformed. -/
def paginationMalformed (r : CallToolRequest) : Bool :=
  malformedInt r "page" || malformedInt r "perPage"

/-! ## Concrete collaborators for the scenario of section 8 -/

/-- Modelled from the spec: the API-error constructor of package `errors`,
declared outside users.go, reduced to what section 7 says of it: a tool-level
error result that carries the contextual message. -/
def scenarioAPIError (_ctx : Context) (message : String) (_resp : Option Response)
    (_err : GoError) : CallToolResult :=
  NewToolResultError message

/-- Modelled from the spec: the JSON encoding of `MinimalUser`, declared outside
users.go, with the member names of section 3: `login`, `id`, `avatarURL`,
`profileURL`. -/
def scenarioMarshalUser (u : MinimalUser) : String :=
  renderObject
    [("login", String.mk (appendString u.Login)), ("id", String.mk (appendInt64 u.ID)),
     ("avatarURL", String.mk (appendString u.AvatarURL)),
     ("profileURL", String.mk (appendString u.ProfileURL))]

/-- The collaborators used in the concrete scenarios: defaults page 1 and 30
per page. -/
def scenarioHelpers : Helpers :=
  specHelpers { Page := 1, PerPage := 30 } scenarioAPIError scenarioMarshalUser

/-- The request of the scenario of section 8: `octocat`, page 1, 10 per page. -/
def scenarioRequest : CallToolRequest :=
  { Arguments := [("username", .str "octocat"), ("page", .num 1), ("perPage", .num 10)] }

/-- A client whose list operation answers `result` whatever it is asked. -/
def scenarioClient (result : ListResult) : Client :=
  { ListEventsPerformedByUser := fun _ _ _ _ => result }

/-- A client provider that resolves to `scenarioClient result`. -/
def scenarioProvider (result : ListResult) : GetClientFn :=
  some (fun _ => .ok (some (scenarioClient result)))

/-- An event of the scenario: a push by `octocat` with the given timestamp and
raw payload. -/
def scenarioEvent (id : String) (createdAt : Option Timestamp) (rawPayload : Option String) :
    Event :=
  { ID := some id
    Type_ := some "PushEvent"
    Actor := some { Login := some "octocat", ID := some 1, AvatarURL := none, URL := none }
    Repo := some { ID := some 2, Name := some "octocat/hello", URL := none }
    CreatedAt := createdAt
    RawPayload := rawPayload }

/-- The events of the scenario of section 8: three events, the first with the
raw payload `{"ref":"main"}`, the other two without a payload. -/
def scenarioEvents : List Event :=
  [scenarioEvent "1" none (some "\x7b\"ref\":\"main\"\x7d"), scenarioEvent "2" none none,
    scenarioEvent "3" none none]

/-- The list-events answer of the scenario of section 8: status 200 and the
three events. -/
def scenarioResult : ListResult :=
  .success (scenarioEvents.map some) { StatusCode := 200, Body := .ok "" }

/-- The text the handler returns in the scenario of section 8. -/
def scenarioText : String :=
  "[\x7b\"id\":\"1\",\"type\":\"PushEvent\",\"actor\":\x7b\"login\":\"octocat\",\"id\":1,\"avatarURL\":\"\",\"profileURL\":\"\"\x7d,\"repo\":\x7b\"id\":2,\"name\":\"octocat/hello\",\"url\":\"\"\x7d,\"created_at\":\"0001-01-01T00:00:00Z\",\"payload\":\x7b\"ref\":\"main\"\x7d\x7d,\x7b\"id\":\"2\",\"type\":\"PushEvent\",\"actor\":\x7b\"login\":\"octocat\",\"id\":1,\"avatarURL\":\"\",\"profileURL\":\"\"\x7d,\"repo\":\x7b\"id\":2,\"name\":\"octocat/hello\",\"url\":\"\"\x7d,\"created_at\":\"0001-01-01T00:00:00Z\"\x7d,\x7b\"id\":\"3\",\"type\":\"PushEvent\",\"actor\":\x7b\"login\":\"octocat\",\"id\":1,\"avatarURL\":\"\",\"profileURL\":\"\"\x7d,\"repo\":\x7b\"id\":2,\"name\":\"octocat/hello\",\"url\":\"\"\x7d,\"created_at\":\"0001-01-01T00:00:00Z\"\x7d]"

/-- The list-events calls among the external calls of a run. -/
def listCalls (trace : List Effect) : List Effect :=
  trace.filter fun e =>
    match e with
    | .listEventsPerformedByUser _ _ _ _ => true
    | _ => false

/-- The calls made up to and including the list-events call. -/
def calledUpToList (ctx : Context) (username : String) (pagination : PaginationParams) :
    List Effect :=
  [.getClient ctx, .listEventsPerformedByUser ctx username false
    { Page := pagination.Page, PerPage := pagination.PerPage }]

/-- The fixed pattern `YYYY-MM-DDTHH:MM:SSZ`: the text has 20 characters, a
decimal digit wherever the pattern has a letter other than `T` and `Z`, and the
characters `-`, `-`, `T`, `:`, `:`, `Z` at the places of the pattern. Every
digit is replaced by `0` and the result compared with `0000-00-00T00:00:00Z`. -/
def matchesTimestampPattern (s : String) : Bool :=
  s.data.map (fun c => if isDigit c then '0' else c) = "0000-00-00T00:00:00Z".data

/-- A timestamp in the year `year`, on January 1 at 00:00:00 UTC. -/
def newYear (year : Int) : Timestamp :=
  { Time := { year := year, monthIdx := 0, dayIdx := 0, hour := 0, minute := 0, second := 0,
              offset := 0 } }

/-- The member names of an encoded object, in the order written. -/
def memberNames (ms : JSONMembers) : List String := ms.map Prod.fst

/-- The raw payload is one `json.Marshal` can encode: absent, empty, or
accepted by the scanner of `encoding/json`. -/
def payloadEncodable (event : Event) : Bool :=
  match event.RawPayload with
  | none => true
  | some raw => raw.length = 0 || (appendCompact raw).isSome

/-- Where a position of a JSON text lies with respect to its string literals:
outside of them, inside one, or inside one right after a backslash. -/
inductive Lexical where
  | outside | inString | afterBackslash
  deriving DecidableEq, Repr

/-- The lexical position after the character `c` read at position `lex`. -/
def nextLex (lex : Lexical) (c : Char) : Lexical :=
  match lex with
  | .outside => if c = '"' then .inString else .outside
  | .inString => if c = '"' then .outside else if c = '\\' then .afterBackslash else .inString
  | .afterBackslash => .inString

/-- What compaction writes for a character it keeps: its escape if it has one,
otherwise the character itself. -/
def compactKeep (c : Char) : List Char := (compactEscape c).getD [c]

/-- The compact form of a JSON text, stated without the scanner: the characters
' ', tab, carriage return and line feed are dropped where they stand outside
string literals, each of `<`, `>`, `&`, U+2028, U+2029 is replaced by its
`\u` escape, and every other character is copied. -/
def compactForm : Lexical → List Char → List Char
  | _, [] => []
  | lex, c :: rest =>
    (if lex = .outside ∧ isSpace c = true then [] else compactKeep c)
      ++ compactForm (nextLex lex c) rest

/-- The lexical position a scanner state stands for; the error state stands for
none. -/
def lexOf : ScanState → Option Lexical
  | .stateInString | .stateInStringEscU | .stateInStringEscU1 | .stateInStringEscU12
  | .stateInStringEscU123 => some .inString
  | .stateInStringEsc => some .afterBackslash
  | .stateError => none
  | _ => some .outside

/-- One scanner step agrees with the lexical reading: either the scanner has
recorded an error, or it moved to a state that stands for the next lexical
position and asked to leave the character out exactly when the character is
whitespace outside a string literal. -/
def StepOK (lex : Lexical) (c : Char) (r : Scanner × ScanCode) : Prop :=
  (r.1.err = true ∧ r.1.step = .stateError)
  ∨ (r.1.err = false ∧ r.2 ≠ .scanError ∧ lexOf r.1.step = some (nextLex lex c)
      ∧ r.2.geSkipSpace = (decide (lex = .outside) && isSpace c))

/-- The raw payload is already in compact form: compaction would write it
back unchanged. -/
def isCompact (raw : String) : Bool := compactForm .outside raw.data = raw.data

/-! ## Theorems -/

/-! ### The paths through the handler -/

theorem handler_username_error (h : Helpers) (ctx : Context) (request : CallToolRequest)
    (getClient : GetClientFn) (msg : String)
    (hUser : h.RequiredParam request "username" = .error msg) :
    handler h getClient ctx request
      = { outcome := .returned (some (NewToolResultError msg)) none, trace := [] } := by
  simp only [handler, hUser]

/-- A request whose pagination parameters fail validation: the error result, no call made. -/
theorem handler_pagination_error (h : Helpers) (ctx : Context) (request : CallToolRequest)
    (username : String) (getClient : GetClientFn) (msg : String)
    (hUser : h.RequiredParam request "username" = .ok username)
    (hPage : h.OptionalPaginationParams request = .error msg) :
    handler h getClient ctx request
      = { outcome := .returned (some (NewToolResultError msg)) none, trace := [] } := by
  simp only [handler, hUser, hPage]

/-- The list-events call fails: the API-error result, the body untouched. -/
theorem handler_list_failure (h : Helpers) (provider : Context → Except GoError (Option Client)) (ctx : Context)
    (request : CallToolRequest) (username : String) (pagination : PaginationParams)
    (client : Client)
    (resp : Option Response) (err : GoError)
    (hUser : h.RequiredParam request "username" = .ok username)
    (hPage : h.OptionalPaginationParams request = .ok pagination)
    (hClient : provider ctx = .ok (some client))
    (hList : client.ListEventsPerformedByUser ctx username false
      { Page := pagination.Page, PerPage := pagination.PerPage } = .failure resp err) :
    handler h (some provider) ctx request
      = { outcome := .returned
            (some (h.NewGitHubAPIErrorResponse ctx
              ("failed to get activity for user '" ++ username ++ "'") resp err)) none
          trace := calledUpToList ctx username pagination } := by
  simp only [handler, hUser, hPage, hClient, hList, calledUpToList]

/-- A status other than 200 whose body cannot be read: the hard error `failed to read response body`. -/
theorem handler_status_body_error (h : Helpers) (provider : Context → Except GoError (Option Client)) (ctx : Context)
    (request : CallToolRequest) (username : String) (pagination : PaginationParams)
    (client : Client)
    (events : List (Option Event)) (resp : Response)
    (err : GoError)
    (hUser : h.RequiredParam request "username" = .ok username)
    (hPage : h.OptionalPaginationParams request = .ok pagination)
    (hClient : provider ctx = .ok (some client))
    (hList : client.ListEventsPerformedByUser ctx username false
      { Page := pagination.Page, PerPage := pagination.PerPage } = .success events resp)
    (hStatus : resp.StatusCode ≠ 200) (hBody : resp.Body = .error err) :
    handler h (some provider) ctx request
      = { outcome := .returned none (some (.wrapped "failed to read response body" err))
          trace := calledUpToList ctx username pagination ++ [.readAll, .bodyClose] } := by
  simp only [handler, hUser, hPage, hClient, hList, calledUpToList, ne_eq, hStatus,
    not_false_eq_true, if_true, hBody]

/-- A status other than 200 whose body is read: the error result built from the body. -/
theorem handler_status_body_ok (h : Helpers) (provider : Context → Except GoError (Option Client)) (ctx : Context)
    (request : CallToolRequest) (username : String) (pagination : PaginationParams)
    (client : Client)
    (events : List (Option Event)) (resp : Response)
    (body : String)
    (hUser : h.RequiredParam request "username" = .ok username)
    (hPage : h.OptionalPaginationParams request = .ok pagination)
    (hClient : provider ctx = .ok (some client))
    (hList : client.ListEventsPerformedByUser ctx username false
      { Page := pagination.Page, PerPage := pagination.PerPage } = .success events resp)
    (hStatus : resp.StatusCode ≠ 200) (hBody : resp.Body = .ok body) :
    handler h (some provider) ctx request
      = { outcome := .returned
            (some (NewToolResultError ("failed to get user activity: " ++ body))) none
          trace := calledUpToList ctx username pagination ++ [.readAll, .bodyClose] } := by
  simp only [handler, hUser, hPage, hClient, hList, calledUpToList, ne_eq, hStatus,
    not_false_eq_true, if_true, hBody]

/-- Status 200 and a nil element in the slice: the loop panics, the body is closed. -/
theorem handler_nil_event (h : Helpers) (provider : Context → Except GoError (Option Client)) (ctx : Context)
    (request : CallToolRequest) (username : String) (pagination : PaginationParams)
    (client : Client)
    (events : List (Option Event)) (resp : Response)
    (hUser : h.RequiredParam request "username" = .ok username)
    (hPage : h.OptionalPaginationParams request = .ok pagination)
    (hClient : provider ctx = .ok (some client))
    (hList : client.ListEventsPerformedByUser ctx username false
      { Page := pagination.Page, PerPage := pagination.PerPage } = .success events resp)
    (hStatus : resp.StatusCode = 200) (hProj : projectEvents events = none) :
    handler h (some provider) ctx request
      = { outcome := .panicked
          trace := calledUpToList ctx username pagination ++ [.bodyClose] } := by
  simp only [handler, hUser, hPage, hClient, hList, calledUpToList, ne_eq, hStatus,
    not_true_eq_false, if_false, hProj]

/-- Status 200 and `json.Marshal` fails: the hard error `failed to marshal response`. -/
theorem handler_marshal_error (h : Helpers) (provider : Context → Except GoError (Option Client)) (ctx : Context)
    (request : CallToolRequest) (username : String) (pagination : PaginationParams)
    (client : Client)
    (events : List (Option Event)) (resp : Response)
    (mes : List MinimalEvent) (err : GoError)
    (hUser : h.RequiredParam request "username" = .ok username)
    (hPage : h.OptionalPaginationParams request = .ok pagination)
    (hClient : provider ctx = .ok (some client))
    (hList : client.ListEventsPerformedByUser ctx username false
      { Page := pagination.Page, PerPage := pagination.PerPage } = .success events resp)
    (hStatus : resp.StatusCode = 200) (hProj : projectEvents events = some mes)
    (hMarshal : jsonMarshal h.marshalMinimalUser mes = .error err) :
    handler h (some provider) ctx request
      = { outcome := .returned none (some (.wrapped "failed to marshal response" err))
          trace := calledUpToList ctx username pagination ++ [.jsonMarshal, .bodyClose] } := by
  simp only [handler, hUser, hPage, hClient, hList, calledUpToList, ne_eq, hStatus,
    not_true_eq_false, if_false, hProj, hMarshal]

/-- Status 200 and `json.Marshal` succeeds: the text result. -/
theorem handler_success (h : Helpers) (provider : Context → Except GoError (Option Client)) (ctx : Context)
    (request : CallToolRequest) (username : String) (pagination : PaginationParams)
    (client : Client)
    (events : List (Option Event)) (resp : Response)
    (mes : List MinimalEvent) (r : String)
    (hUser : h.RequiredParam request "username" = .ok username)
    (hPage : h.OptionalPaginationParams request = .ok pagination)
    (hClient : provider ctx = .ok (some client))
    (hList : client.ListEventsPerformedByUser ctx username false
      { Page := pagination.Page, PerPage := pagination.PerPage } = .success events resp)
    (hStatus : resp.StatusCode = 200) (hProj : projectEvents events = some mes)
    (hMarshal : jsonMarshal h.marshalMinimalUser mes = .ok r) :
    handler h (some provider) ctx request
      = { outcome := .returned (some (NewToolResultText r)) none
          trace := calledUpToList ctx username pagination ++ [.jsonMarshal, .bodyClose] } := by
  simp only [handler, hUser, hPage, hClient, hList, calledUpToList, ne_eq, hStatus,
    not_true_eq_false, if_false, hProj, hMarshal]

/-- The trace of a run that passed validation and resolved a client holds
exactly one list-events call. -/
theorem listCalls_of_resolved (h : Helpers) (provider : Context → Except GoError (Option Client))
    (ctx : Context) (request : CallToolRequest) (username : String)
    (pagination : PaginationParams) (client : Client)
    (hUser : h.RequiredParam request "username" = .ok username)
    (hPage : h.OptionalPaginationParams request = .ok pagination)
    (hClient : provider ctx = .ok (some client)) :
    listCalls (handler h (some provider) ctx request).trace
      = [Effect.listEventsPerformedByUser ctx username false
          { Page := pagination.Page, PerPage := pagination.PerPage }] := by
  cases hList : client.ListEventsPerformedByUser ctx username false
      { Page := pagination.Page, PerPage := pagination.PerPage } with
  | failure resp err =>
    rw [handler_list_failure h provider ctx request username pagination client resp err
      hUser hPage hClient hList]
    rfl
  | success events resp =>
    by_cases hs : resp.StatusCode = 200
    · cases hProj : projectEvents events with
      | none =>
        rw [handler_nil_event h provider ctx request username pagination client events resp
          hUser hPage hClient hList hs hProj]
        rfl
      | some mes =>
        cases hM : jsonMarshal h.marshalMinimalUser mes with
        | error err =>
          rw [handler_marshal_error h provider ctx request username pagination client events
            resp mes err hUser hPage hClient hList hs hProj hM]
          rfl
        | ok r =>
          rw [handler_success h provider ctx request username pagination client events
            resp mes r hUser hPage hClient hList hs hProj hM]
          rfl
    · cases hBody : resp.Body with
      | error err =>
        rw [handler_status_body_error h provider ctx request username pagination client events
          resp err hUser hPage hClient hList hs hBody]
        rfl
      | ok body =>
        rw [handler_status_body_ok h provider ctx request username pagination client events
          resp body hUser hPage hClient hList hs hBody]
        rfl

/-! ### The projection loop and the encoder -/

/-- On a slice without nil elements the loop yields the projections in order. -/
theorem projectEvents_map_some (evs : List Event) :
    projectEvents (evs.map some) = some (evs.map minimalEventOf) := by
  induction evs with
  | nil => rfl
  | cons e rest ih => simp [projectEvents, projectEvent, ih]

/-- When the loop completes, the slice had no nil element and the result holds
the projections in order. -/
theorem projectEvents_eq_some (events : List (Option Event)) (mes : List MinimalEvent)
    (hProj : projectEvents events = some mes) :
    ∃ evs : List Event, events = evs.map some ∧ mes = evs.map minimalEventOf := by
  induction events generalizing mes with
  | nil =>
    simp only [projectEvents, Option.some.injEq] at hProj
    exact ⟨[], rfl, hProj.symm⟩
  | cons ev rest ih =>
    cases ev with
    | none => simp [projectEvents, projectEvent] at hProj
    | some e =>
      cases hRest : projectEvents rest with
      | none => simp [projectEvents, projectEvent, hRest] at hProj
      | some mes1 =>
        simp only [projectEvents, projectEvent, hRest, Option.some.injEq] at hProj
        obtain ⟨evs, h1, h2⟩ := ih mes1 hRest
        exact ⟨e :: evs, by simp [h1], by simp [← hProj, h2]⟩

/-- When the encoder succeeds it wrote one object per element, the i-th object
being the members of the i-th element. -/
theorem encodeEvents_ok (marshalUser : MinimalUser → String) (mes : List MinimalEvent)
    (objs : List JSONMembers) (hEnc : encodeEvents marshalUser mes = .ok objs) :
    objs.length = mes.length
    ∧ ∀ (i : Nat) (me : MinimalEvent), mes[i]? = some me →
        ∃ ms, objs[i]? = some ms ∧ me.members marshalUser = .ok ms := by
  induction mes generalizing objs with
  | nil =>
    simp only [encodeEvents, Except.ok.injEq] at hEnc
    subst hEnc
    simp
  | cons m rest ih =>
    cases hM : m.members marshalUser with
    | error e => simp [encodeEvents, hM] at hEnc
    | ok ms0 =>
      cases hRest : encodeEvents marshalUser rest with
      | error e => simp [encodeEvents, hM, hRest] at hEnc
      | ok objs1 =>
        simp only [encodeEvents, hM, hRest, Except.ok.injEq] at hEnc
        subst hEnc
        obtain ⟨hlen, hidx⟩ := ih objs1 hRest
        refine ⟨by simp [hlen], ?_⟩
        intro i me hi
        cases i with
        | zero =>
          simp only [List.getElem?_cons_zero, Option.some.injEq] at hi
          subst hi
          exact ⟨ms0, by simp, hM⟩
        | succ j =>
          simp only [List.getElem?_cons_succ] at hi
          obtain ⟨ms, h1, h2⟩ := hidx j me hi
          exact ⟨ms, by simpa using h1, h2⟩

/-- The encoder succeeds when every element can be encoded. -/
theorem encodeEvents_of_all_ok (marshalUser : MinimalUser → String) (mes : List MinimalEvent)
    (hAll : ∀ me ∈ mes, ∃ ms, me.members marshalUser = .ok ms) :
    ∃ objs, encodeEvents marshalUser mes = .ok objs := by
  induction mes with
  | nil => exact ⟨[], rfl⟩
  | cons m rest ih =>
    obtain ⟨ms0, hM⟩ := hAll m (by simp)
    obtain ⟨objs1, hRest⟩ := ih (fun me hme => hAll me (by simp [hme]))
    exact ⟨ms0 :: objs1, by simp [encodeEvents, hM, hRest]⟩

/-- The payload of the projection is the raw payload of the event. -/
theorem minimalEventOf_payload (event : Event) :
    (minimalEventOf event).Payload = event.RawPayload := by
  unfold minimalEventOf
  cases event.RawPayload <;> rfl

/-- The names of the members that are always written. -/
theorem memberNames_fixed (marshalUser : MinimalUser → String) (me : MinimalEvent) :
    memberNames (me.fixedMembers marshalUser) = ["id", "type", "actor", "repo", "created_at"] :=
  rfl

/-- An element can be encoded when its payload is absent, empty, or accepted by
the scanner. -/
theorem members_ok_of_encodable (marshalUser : MinimalUser → String) (event : Event)
    (hEnc : payloadEncodable event = true) :
    ∃ ms, (minimalEventOf event).members marshalUser = .ok ms := by
  unfold payloadEncodable at hEnc
  unfold MinimalEvent.members
  rw [minimalEventOf_payload]
  cases hRaw : event.RawPayload with
  | none => exact ⟨_, rfl⟩
  | some raw =>
    simp only [hRaw, Bool.or_eq_true, decide_eq_true_eq] at hEnc
    by_cases hlen : raw.length = 0
    · exact ⟨(minimalEventOf event).fixedMembers marshalUser, by simp [hlen]⟩
    · rcases hEnc with h0 | h1
      · exact absurd h0 hlen
      · obtain ⟨v, hv⟩ := Option.isSome_iff_exists.mp h1
        exact ⟨(minimalEventOf event).fixedMembers marshalUser ++ [("payload", v)],
          by simp [hlen, hv]⟩

/-- What the encoder writes for the `payload` field: nothing when the payload is
nil or empty, otherwise one last member holding the compacted bytes. -/
theorem members_payload (marshalUser : MinimalUser → String) (me : MinimalEvent)
    (ms : JSONMembers) (hM : me.members marshalUser = .ok ms) :
    ((me.Payload = none ∨ me.Payload = some "") ∧ ms = me.fixedMembers marshalUser)
    ∨ (∃ p v, me.Payload = some p ∧ p ≠ "" ∧ appendCompact p = some v
        ∧ ms = me.fixedMembers marshalUser ++ [("payload", v)]) := by
  unfold MinimalEvent.members at hM
  cases hP : me.Payload with
  | none =>
    simp only [hP, Except.ok.injEq] at hM
    exact Or.inl ⟨Or.inl rfl, hM.symm⟩
  | some p =>
    simp only [hP] at hM
    by_cases hlen : p.length = 0
    · simp only [hlen, if_true, Except.ok.injEq] at hM
      have hp : p = "" := by
        apply String.ext
        exact List.length_eq_zero.mp hlen
      exact Or.inl ⟨Or.inr (by rw [hp]), hM.symm⟩
    · simp only [hlen, if_false] at hM
      cases hC : appendCompact p with
      | none => simp [hC] at hM
      | some v =>
        simp only [hC, Except.ok.injEq] at hM
        refine Or.inr ⟨p, v, rfl, ?_, hC, hM.symm⟩
        intro hp
        apply hlen
        rw [hp]
        rfl

/-- A run on the status-200 path that returns a text result: the slice had no
nil element, every projection was encoded, and the text is the array of the
encoded objects. -/
theorem handler_text_output (h : Helpers) (provider : Context → Except GoError (Option Client))
    (ctx : Context) (request : CallToolRequest) (username : String)
    (pagination : PaginationParams) (client : Client) (events : List (Option Event))
    (resp : Response) (r : String)
    (hUser : h.RequiredParam request "username" = .ok username)
    (hPage : h.OptionalPaginationParams request = .ok pagination)
    (hClient : provider ctx = .ok (some client))
    (hList : client.ListEventsPerformedByUser ctx username false
      { Page := pagination.Page, PerPage := pagination.PerPage } = .success events resp)
    (hStatus : resp.StatusCode = 200)
    (hOut : (handler h (some provider) ctx request).outcome
      = .returned (some (NewToolResultText r)) none) :
    ∃ (evs : List Event) (objs : List JSONMembers),
      events = evs.map some
      ∧ encodeEvents h.marshalMinimalUser (evs.map minimalEventOf) = .ok objs
      ∧ r = renderArray (objs.map renderObject) := by
  cases hProj : projectEvents events with
  | none =>
    rw [handler_nil_event h provider ctx request username pagination client events resp
      hUser hPage hClient hList hStatus hProj] at hOut
    cases hOut
  | some mes =>
    obtain ⟨evs, hEvs, hMes⟩ := projectEvents_eq_some events mes hProj
    cases hM : jsonMarshal h.marshalMinimalUser mes with
    | error err =>
      rw [handler_marshal_error h provider ctx request username pagination client events
        resp mes err hUser hPage hClient hList hStatus hProj hM] at hOut
      cases hOut
    | ok r1 =>
      rw [handler_success h provider ctx request username pagination client events
        resp mes r1 hUser hPage hClient hList hStatus hProj hM] at hOut
      have hr : r1 = r := by
        simp only [Outcome.returned.injEq, Option.some.injEq, NewToolResultText,
          CallToolResult.mk.injEq, List.cons.injEq, TextContent.mk.injEq, true_and, and_true]
          at hOut
        exact hOut
      subst hr
      unfold jsonMarshal at hM
      cases hE : encodeEvents h.marshalMinimalUser mes with
      | error e => simp [hE] at hM
      | ok objs =>
        simp only [hE, Except.ok.injEq] at hM
        exact ⟨evs, objs, hEvs, by rw [← hMes]; exact hE, hM.symm⟩

theorem stepOK_error (lex : Lexical) (c : Char) (s : Scanner) : StepOK lex c s.error :=
  Or.inl ⟨rfl, rfl⟩

/-- A whitespace character is not the double quote. -/
theorem isSpace_ne_quote (c : Char) (hsp : isSpace c = true) : c ≠ '"' := by
  rintro rfl
  revert hsp
  decide

/-- Outside a string literal: a character that is neither whitespace nor a quote, kept by the scanner, leaves the position outside. -/
theorem stepOK_outside (c : Char) (s1 : Scanner) (v : ScanCode) (hErr : s1.err = false)
    (hLex : lexOf s1.step = some .outside) (hq : c ≠ '"') (hsp : isSpace c = false)
    (hv : v.geSkipSpace = false) : StepOK .outside c (s1, v) := by
  right
  refine ⟨hErr, ?_, ?_, ?_⟩
  · rintro rfl
    simp [ScanCode.geSkipSpace] at hv
  · simp [nextLex, hq, hLex]
  · simp [hsp, hv]

/-- Outside a string literal: a whitespace character for which the scanner answers `scanSkipSpace` or `scanEnd`. -/
theorem stepOK_outside_space (c : Char) (s1 : Scanner) (v : ScanCode) (hErr : s1.err = false)
    (hLex : lexOf s1.step = some .outside) (hsp : isSpace c = true)
    (hv : v = .scanSkipSpace ∨ v = .scanEnd) : StepOK .outside c (s1, v) := by
  right
  refine ⟨hErr, ?_, ?_, ?_⟩
  · rcases hv with rfl | rfl <;> simp
  · simp [nextLex, isSpace_ne_quote c hsp, hLex]
  · rcases hv with rfl | rfl <;> simp [hsp, ScanCode.geSkipSpace]

/-- The step `stateEndTop` agrees with the lexical reading. -/
theorem stateEndTop_ok (s : Scanner) (c : Char) (hErr : s.err = false)
    (hStep : lexOf s.step = some .outside) : StepOK .outside c (stateEndTop s c) := by
  unfold stateEndTop
  by_cases hsp : isSpace c = true
  · simp only [hsp, Bool.not_true, Bool.false_eq_true, if_false]
    exact stepOK_outside_space c s _ hErr hStep hsp (Or.inr rfl)
  · left
    simp [hsp, Scanner.error]

/-- After `popParseState` the scanner stands outside a string literal. -/
theorem popParseState_lex (s : Scanner) (hErr : s.err = false) :
    s.popParseState.err = false ∧ lexOf s.popParseState.step = some .outside := by
  unfold Scanner.popParseState
  by_cases hl : s.parseState.tail.length = 0
  · simp only [hl, if_true]
    exact ⟨hErr, rfl⟩
  · simp only [hl, if_false]
    exact ⟨hErr, rfl⟩

/-- The step `stateEndValue` agrees with the lexical reading. -/
theorem stateEndValue_ok (s : Scanner) (c : Char) (hErr : s.err = false) :
    StepOK .outside c (stateEndValue s c) := by
  unfold stateEndValue
  cases hps : s.parseState with
  | nil => exact stateEndTop_ok _ c hErr rfl
  | cons ps rest =>
    simp only
    by_cases hsp : isSpace c = true
    · rw [if_pos hsp]
      exact stepOK_outside_space c _ _ hErr rfl hsp (Or.inl rfl)
    · rw [if_neg hsp]
      have hsp1 : isSpace c = false := by simpa using hsp
      cases ps with
      | parseObjectKey =>
        simp only
        split
        · next h => exact stepOK_outside c _ _ hErr rfl (by rw [h]; decide) hsp1 rfl
        · exact stepOK_error _ _ _
      | parseObjectValue =>
        simp only
        split
        · next h => exact stepOK_outside c _ _ hErr rfl (by rw [h]; decide) hsp1 rfl
        · split
          · next h =>
            exact stepOK_outside c _ _ (popParseState_lex s hErr).1 (popParseState_lex s hErr).2
              (by rw [h]; decide) hsp1 rfl
          · exact stepOK_error _ _ _
      | parseArrayValue =>
        simp only
        split
        · next h => exact stepOK_outside c _ _ hErr rfl (by rw [h]; decide) hsp1 rfl
        · split
          · next h =>
            exact stepOK_outside c _ _ (popParseState_lex s hErr).1 (popParseState_lex s hErr).2
              (by rw [h]; decide) hsp1 rfl
          · exact stepOK_error _ _ _

/-- The four whitespace characters of JSON. -/
theorem isSpace_cases (c : Char) (hsp : ¬ isSpace c = false) :
    c = ' ' ∨ c = '\t' ∨ c = '\r' ∨ c = '\n' := by
  simp only [isSpace, Bool.or_eq_false_iff, decide_eq_false_iff_not, not_and, not_not] at hsp
  by_cases h1 : c = ' '
  · exact Or.inl h1
  · by_cases h2 : c = '\t'
    · exact Or.inr (Or.inl h2)
    · by_cases h3 : c = '\r'
      · exact Or.inr (Or.inr (Or.inl h3))
      · exact Or.inr (Or.inr (Or.inr (hsp ⟨⟨h1, h2⟩, h3⟩)))

/-- A digit from 1 to 9 is neither a quote nor whitespace. -/
theorem nonzero_digit_facts (c : Char) (h : '1' ≤ c ∧ c ≤ '9') :
    c ≠ '"' ∧ isSpace c = false := by
  refine ⟨?_, ?_⟩
  · rintro rfl
    revert h
    decide
  · by_contra hsp
    rcases isSpace_cases c hsp with rfl | rfl | rfl | rfl <;> revert h <;> decide

/-- A decimal digit is neither a quote nor whitespace. -/
theorem isDigit_facts (c : Char) (h : isDigit c = true) : c ≠ '"' ∧ isSpace c = false := by
  refine ⟨?_, ?_⟩
  · rintro rfl
    revert h
    decide
  · by_contra hsp
    rcases isSpace_cases c hsp with rfl | rfl | rfl | rfl <;> revert h <;> decide

/-- A hexadecimal digit is neither a quote nor a backslash. -/
theorem isHex_facts (c : Char) (h : isHex c = true) : c ≠ '"' ∧ c ≠ '\\' := by
  refine ⟨?_, ?_⟩ <;>
  · rintro rfl
    revert h
    decide

/-- The method `pushParseState` agrees with the lexical reading. -/
theorem pushParseState_ok (s : Scanner) (c : Char) (ps : ParseState) (v : ScanCode)
    (hErr : s.err = false) (hLex : lexOf s.step = some .outside) (hq : c ≠ '"')
    (hsp : isSpace c = false) (hv : v.geSkipSpace = false) :
    StepOK .outside c (s.pushParseState ps v) := by
  unfold Scanner.pushParseState
  simp only
  split
  · exact stepOK_outside c _ _ hErr hLex hq hsp hv
  · exact stepOK_error _ _ _

/-- The step `stateBeginValue` agrees with the lexical reading. -/
theorem stateBeginValue_ok (s : Scanner) (c : Char) (hErr : s.err = false)
    (hStep : lexOf s.step = some .outside) : StepOK .outside c (stateBeginValue s c) := by
  unfold stateBeginValue
  by_cases hsp : isSpace c = true
  · rw [if_pos hsp]
    exact stepOK_outside_space c s _ hErr hStep hsp (Or.inl rfl)
  · rw [if_neg hsp]
    have hsp1 : isSpace c = false := by simpa using hsp
    split
    · next h => exact pushParseState_ok _ c _ _ hErr rfl (by rw [h]; decide) hsp1 rfl
    split
    · next h => exact pushParseState_ok _ c _ _ hErr rfl (by rw [h]; decide) hsp1 rfl
    split
    · next h =>
      right
      subst h
      exact ⟨hErr, by simp, rfl, rfl⟩
    split
    · next h => exact stepOK_outside c _ _ hErr rfl (by rw [h]; decide) hsp1 rfl
    split
    · next h => exact stepOK_outside c _ _ hErr rfl (by rw [h]; decide) hsp1 rfl
    split
    · next h => exact stepOK_outside c _ _ hErr rfl (by rw [h]; decide) hsp1 rfl
    split
    · next h => exact stepOK_outside c _ _ hErr rfl (by rw [h]; decide) hsp1 rfl
    split
    · next h => exact stepOK_outside c _ _ hErr rfl (by rw [h]; decide) hsp1 rfl
    split
    · next h => exact stepOK_outside c _ _ hErr rfl (nonzero_digit_facts c h).1 hsp1 rfl
    · exact stepOK_error _ _ _

/-- The step `stateBeginValueOrEmpty` agrees with the lexical reading. -/
theorem stateBeginValueOrEmpty_ok (s : Scanner) (c : Char) (hErr : s.err = false)
    (hStep : lexOf s.step = some .outside) : StepOK .outside c (stateBeginValueOrEmpty s c) := by
  unfold stateBeginValueOrEmpty
  by_cases hsp : isSpace c = true
  · rw [if_pos hsp]
    exact stepOK_outside_space c s _ hErr hStep hsp (Or.inl rfl)
  · rw [if_neg hsp]
    split
    · exact stateEndValue_ok s c hErr
    · exact stateBeginValue_ok s c hErr hStep

/-- The step `stateBeginString` agrees with the lexical reading. -/
theorem stateBeginString_ok (s : Scanner) (c : Char) (hErr : s.err = false)
    (hStep : lexOf s.step = some .outside) : StepOK .outside c (stateBeginString s c) := by
  unfold stateBeginString
  by_cases hsp : isSpace c = true
  · rw [if_pos hsp]
    exact stepOK_outside_space c s _ hErr hStep hsp (Or.inl rfl)
  · rw [if_neg hsp]
    split
    · next h =>
      right
      subst h
      exact ⟨hErr, by simp, rfl, rfl⟩
    · exact stepOK_error _ _ _

/-- The step `stateBeginStringOrEmpty` agrees with the lexical reading. -/
theorem stateBeginStringOrEmpty_ok (s : Scanner) (c : Char) (hErr : s.err = false)
    (hStep : lexOf s.step = some .outside) : StepOK .outside c (stateBeginStringOrEmpty s c) := by
  unfold stateBeginStringOrEmpty
  by_cases hsp : isSpace c = true
  · rw [if_pos hsp]
    exact stepOK_outside_space c s _ hErr hStep hsp (Or.inl rfl)
  · rw [if_neg hsp]
    split
    · exact stateEndValue_ok _ c hErr
    · exact stateBeginString_ok s c hErr hStep

/-- The step `stateInString` agrees with the lexical reading. -/
theorem stateInString_ok (s : Scanner) (c : Char) (hErr : s.err = false)
    (hStep : lexOf s.step = some .inString) : StepOK .inString c (stateInString s c) := by
  unfold stateInString
  split
  · next h =>
    right
    subst h
    exact ⟨hErr, by simp, rfl, rfl⟩
  split
  · next h1 h =>
    right
    subst h
    exact ⟨hErr, by simp, rfl, rfl⟩
  split
  · exact stepOK_error _ _ _
  · next h1 h2 h3 =>
    right
    exact ⟨hErr, by simp, by simp [nextLex, h1, h2, hStep], rfl⟩

/-- The step `stateInStringEsc` agrees with the lexical reading. -/
theorem stateInStringEsc_ok (s : Scanner) (c : Char) (hErr : s.err = false) :
    StepOK .afterBackslash c (stateInStringEsc s c) := by
  unfold stateInStringEsc
  split
  · right
    exact ⟨hErr, by simp, rfl, rfl⟩
  split
  · right
    exact ⟨hErr, by simp, rfl, rfl⟩
  · exact stepOK_error _ _ _

/-- The steps inside a `\u` escape agree with the lexical reading. -/
theorem stateInStringEscHex_ok (next : ScanState) (s : Scanner) (c : Char)
    (hErr : s.err = false) (hNext : lexOf next = some .inString) :
    StepOK .inString c (stateInStringEscHex next s c) := by
  unfold stateInStringEscHex
  split
  · next h =>
    right
    exact ⟨hErr, by simp, by simp [nextLex, (isHex_facts c h).1, (isHex_facts c h).2, hNext],
      rfl⟩
  · exact stepOK_error _ _ _

/-- The step `state0` agrees with the lexical reading. -/
theorem state0_ok (s : Scanner) (c : Char) (hErr : s.err = false) :
    StepOK .outside c (state0 s c) := by
  unfold state0
  split
  · next h =>
    subst h
    exact stepOK_outside _ _ _ hErr rfl (by decide) (by decide) rfl
  split
  · next h =>
    rcases h with h | h <;> subst h <;>
      exact stepOK_outside _ _ _ hErr rfl (by decide) (by decide) rfl
  · exact stateEndValue_ok s c hErr

/-- The step `state1` agrees with the lexical reading. -/
theorem state1_ok (s : Scanner) (c : Char) (hErr : s.err = false) :
    StepOK .outside c (state1 s c) := by
  unfold state1
  split
  · next h => exact stepOK_outside c _ _ hErr rfl (isDigit_facts c h).1 (isDigit_facts c h).2 rfl
  · exact state0_ok s c hErr

/-- The step `stateNeg` agrees with the lexical reading. -/
theorem stateNeg_ok (s : Scanner) (c : Char) (hErr : s.err = false) :
    StepOK .outside c (stateNeg s c) := by
  unfold stateNeg
  split
  · next h =>
    subst h
    exact stepOK_outside _ _ _ hErr rfl (by decide) (by decide) rfl
  split
  · next h =>
    exact stepOK_outside c _ _ hErr rfl (nonzero_digit_facts c h).1 (nonzero_digit_facts c h).2
      rfl
  · exact stepOK_error _ _ _

/-- The step `stateDot` agrees with the lexical reading. -/
theorem stateDot_ok (s : Scanner) (c : Char) (hErr : s.err = false) :
    StepOK .outside c (stateDot s c) := by
  unfold stateDot
  split
  · next h => exact stepOK_outside c _ _ hErr rfl (isDigit_facts c h).1 (isDigit_facts c h).2 rfl
  · exact stepOK_error _ _ _

/-- The step `stateDot0` agrees with the lexical reading. -/
theorem stateDot0_ok (s : Scanner) (c : Char) (hErr : s.err = false)
    (hStep : lexOf s.step = some .outside) : StepOK .outside c (stateDot0 s c) := by
  unfold stateDot0
  split
  · next h =>
    exact stepOK_outside c _ _ hErr hStep (isDigit_facts c h).1 (isDigit_facts c h).2 rfl
  split
  · next h =>
    rcases h with h | h <;> subst h <;>
      exact stepOK_outside _ _ _ hErr rfl (by decide) (by decide) rfl
  · exact stateEndValue_ok s c hErr

/-- The step `stateESign` agrees with the lexical reading. -/
theorem stateESign_ok (s : Scanner) (c : Char) (hErr : s.err = false) :
    StepOK .outside c (stateESign s c) := by
  unfold stateESign
  split
  · next h => exact stepOK_outside c _ _ hErr rfl (isDigit_facts c h).1 (isDigit_facts c h).2 rfl
  · exact stepOK_error _ _ _

/-- The step `stateE` agrees with the lexical reading. -/
theorem stateE_ok (s : Scanner) (c : Char) (hErr : s.err = false) :
    StepOK .outside c (stateE s c) := by
  unfold stateE
  split
  · next h =>
    rcases h with h | h <;> subst h <;>
      exact stepOK_outside _ _ _ hErr rfl (by decide) (by decide) rfl
  · exact stateESign_ok s c hErr

/-- The step `stateE0` agrees with the lexical reading. -/
theorem stateE0_ok (s : Scanner) (c : Char) (hErr : s.err = false)
    (hStep : lexOf s.step = some .outside) : StepOK .outside c (stateE0 s c) := by
  unfold stateE0
  split
  · next h =>
    exact stepOK_outside c _ _ hErr hStep (isDigit_facts c h).1 (isDigit_facts c h).2 rfl
  · exact stateEndValue_ok s c hErr

/-- The steps inside the literals `true`, `false`, `null` agree with the lexical reading. -/
theorem stateLetter_ok (want : Char) (next : ScanState) (s : Scanner) (c : Char)
    (hErr : s.err = false) (hNext : lexOf next = some .outside) (hq : want ≠ '"')
    (hsp : isSpace want = false) : StepOK .outside c (stateLetter want next s c) := by
  unfold stateLetter
  split
  · next h =>
    subst h
    exact stepOK_outside _ _ _ hErr hNext hq hsp rfl
  · exact stepOK_error _ _ _

/-- Every scanner step agrees with the lexical reading of the text. -/
theorem stepFn_ok (s : Scanner) (c : Char) (lex : Lexical) (hErr : s.err = false)
    (hLex : lexOf s.step = some lex) : StepOK lex c (s.stepFn c) := by
  unfold Scanner.stepFn
  cases hs : s.step <;> rw [hs] at hLex <;> simp only [lexOf] at hLex <;> cases hLex <;>
    simp only
  · exact stateBeginValueOrEmpty_ok s c hErr (by rw [hs]; rfl)
  · exact stateBeginValue_ok s c hErr (by rw [hs]; rfl)
  · exact stateBeginStringOrEmpty_ok s c hErr (by rw [hs]; rfl)
  · exact stateBeginString_ok s c hErr (by rw [hs]; rfl)
  · exact stateEndValue_ok s c hErr
  · exact stateEndTop_ok s c hErr (by rw [hs]; rfl)
  · exact stateInString_ok s c hErr (by rw [hs]; rfl)
  · exact stateInStringEsc_ok s c hErr
  · exact stateInStringEscHex_ok _ s c hErr rfl
  · exact stateInStringEscHex_ok _ s c hErr rfl
  · exact stateInStringEscHex_ok _ s c hErr rfl
  · exact stateInStringEscHex_ok _ s c hErr rfl
  · exact stateNeg_ok s c hErr
  · exact state1_ok s c hErr
  · exact state0_ok s c hErr
  · exact stateDot_ok s c hErr
  · exact stateDot0_ok s c hErr (by rw [hs]; rfl)
  · exact stateE_ok s c hErr
  · exact stateESign_ok s c hErr
  · exact stateE0_ok s c hErr (by rw [hs]; rfl)
  all_goals exact stateLetter_ok _ _ s c hErr rfl (by decide) (by decide)

/-- Once the scanner is in its error state the loop ends with the error set. -/
theorem compactLoop_dead (s : Scanner) (out cs : List Char) (hErr : s.err = true)
    (hStep : s.step = .stateError) : (compactLoop s out cs).1.err = true := by
  cases cs with
  | nil => simpa [compactLoop] using hErr
  | cons c rest =>
    have hstep : s.stepFn c = (s, .scanError) := by
      unfold Scanner.stepFn
      rw [hStep]
    simp [compactLoop, hstep, hErr]

/-- A character that has an escape is not whitespace. -/
theorem compactEscape_not_space (c : Char) (e : List Char) (h : compactEscape c = some e) :
    isSpace c = false := by
  by_contra hsp
  rcases isSpace_cases c hsp with rfl | rfl | rfl | rfl
  · have h0 : compactEscape ' ' = none := by decide
    rw [h0] at h
    cases h
  · have h0 : compactEscape '\t' = none := by decide
    rw [h0] at h
    cases h
  · have h0 : compactEscape '\r' = none := by decide
    rw [h0] at h
    cases h
  · have h0 : compactEscape '\n' = none := by decide
    rw [h0] at h
    cases h

/-- The loop of `appendCompact` either ends with the scanner's error set or has
written the compact form of what it read. -/
theorem compactLoop_refines (cs : List Char) :
    ∀ (s : Scanner) (out : List Char) (lex : Lexical), s.err = false →
      lexOf s.step = some lex →
      (compactLoop s out cs).1.err = true
      ∨ (compactLoop s out cs).2 = out ++ compactForm lex cs := by
  induction cs with
  | nil =>
    intro s out lex _ _
    right
    simp [compactLoop, compactForm]
  | cons c rest ih =>
    intro s out lex hErr hLex
    rcases stepFn_ok s c lex hErr hLex with ⟨he, hst⟩ | ⟨he, hne, hl, hg⟩
    · left
      unfold compactLoop
      by_cases hv : (s.stepFn c).2 = .scanError
      · simp only [hv, if_true]
        exact he
      · simp only [hv, if_false]
        cases compactEscape c <;> exact compactLoop_dead _ _ _ he hst
    · unfold compactLoop
      simp only [hne, if_false]
      cases hesc : compactEscape c with
      | some e =>
        simp only
        have hsp := compactEscape_not_space c e hesc
        rcases ih (s.stepFn c).1 (out ++ e) (nextLex lex c) he hl with h1 | h2
        · exact Or.inl h1
        · right
          rw [h2]
          simp [compactForm, compactKeep, hesc, hsp]
      | none =>
        simp only
        rw [hg]
        by_cases hdrop : lex = .outside ∧ isSpace c = true
        · rcases ih (s.stepFn c).1 out (nextLex lex c) he hl with h1 | h2
          · left
            simpa [hdrop.1, hdrop.2] using h1
          · right
            simp only [hdrop.1, hdrop.2, decide_True, Bool.and_self, if_true]
            rw [hdrop.1] at h2
            rw [h2]
            simp [compactForm, hdrop.2]
        · have hb : (decide (lex = .outside) && isSpace c) = false := by
            by_cases h1 : lex = .outside
            · have h2 : isSpace c = false := by
                by_contra h3
                exact hdrop ⟨h1, by simpa using h3⟩
              simp [h1, h2]
            · simp [h1]
          rcases ih (s.stepFn c).1 (out ++ [c]) (nextLex lex c) he hl with h1 | h2
          · left
            simpa [hb] using h1
          · right
            simp only [hb, Bool.false_eq_true, if_false]
            rw [h2]
            simp [compactForm, compactKeep, hesc, hdrop]

/-- Go's compaction, when it succeeds, yields the compact form of the text. -/
theorem appendCompact_eq_compactForm (src out : String) (h : appendCompact src = some out) :
    out = String.mk (compactForm .outside src.data) := by
  unfold appendCompact at h
  simp only at h
  by_cases hEof : (compactLoop Scanner.reset [] src.data).1.eofIsError = true
  · simp [hEof] at h
  · simp only [hEof, Bool.false_eq_true, if_false, Option.some.injEq] at h
    have hErr : (compactLoop Scanner.reset [] src.data).1.err = false := by
      by_contra hne
      apply hEof
      unfold Scanner.eofIsError
      simp only [Bool.not_eq_false] at hne
      simp [hne]
    rcases compactLoop_refines src.data Scanner.reset [] .outside rfl rfl with h1 | h2
    · rw [hErr] at h1
      cases h1
    · rw [← h, h2]
      rfl


/-! ### C2: the list-events request -/

/-- C2 (as stated, refuted): on the scenario request the one list-events call
the handler issues carries `publicOnly = false`; the public-only flag is not
set. -/
theorem c2_public_only_flag_is_false :
    listCalls (handler scenarioHelpers (scenarioProvider (.failure none (.external "down"))) 0
        scenarioRequest).trace
      = [Effect.listEventsPerformedByUser 0 "octocat" false { Page := 1, PerPage := 10 }]
    ∧ listCalls (handler scenarioHelpers (scenarioProvider (.failure none (.external "down"))) 0
        scenarioRequest).trace
      ≠ [Effect.listEventsPerformedByUser 0 "octocat" true { Page := 1, PerPage := 10 }] := by
  decide

/-- C2 (amended): for every request that passes validation and for which a
client is resolved, the handler issues exactly one list-events call; it is for
the validated username, carries the resolved page and per-page values, and has
the public-only flag of the operation cleared (`false`): the request is for the
events performed by the user, not restricted to public ones. -/
theorem c2_single_list_call (h : Helpers) (provider : Context → Except GoError (Option Client))
    (ctx : Context) (request : CallToolRequest) (username : String)
    (pagination : PaginationParams) (client : Client)
    (hUser : h.RequiredParam request "username" = .ok username)
    (hPage : h.OptionalPaginationParams request = .ok pagination)
    (hClient : provider ctx = .ok (some client)) :
    ∃ opts : ListOptions,
      listCalls (handler h (some provider) ctx request).trace
        = [Effect.listEventsPerformedByUser ctx username false opts]
      ∧ opts.Page = pagination.Page ∧ opts.PerPage = pagination.PerPage :=
  ⟨_, listCalls_of_resolved h provider ctx request username pagination client hUser hPage
    hClient, rfl, rfl⟩

/-- C2 (amended), at the scenario request: one call, for `octocat`, page 1 with
10 per page, `publicOnly = false`. -/
theorem c2_single_list_call_witness :
    ∃ opts : ListOptions,
      listCalls (handler scenarioHelpers (scenarioProvider (.success [] ⟨200, .ok ""⟩)) 0
          scenarioRequest).trace
        = [Effect.listEventsPerformedByUser 0 "octocat" false opts]
      ∧ opts.Page = 1 ∧ opts.PerPage = 10 :=
  c2_single_list_call scenarioHelpers (fun _ => .ok (some (scenarioClient (.success [] ⟨200, .ok ""⟩))))
    0 scenarioRequest "octocat" { Page := 1, PerPage := 10 }
    (scenarioClient (.success [] ⟨200, .ok ""⟩)) (by decide) (by decide) rfl

/-! ### C4: a response whose status is not 200 -/

/-- C4 (as stated, refuted): for a response with status 204 and a nil error,
whose body reads successfully as the empty byte string, the text of the error
result is `failed to get user activity: `, which is not the body verbatim. -/
theorem c4_text_is_not_the_body :
    (handler scenarioHelpers (scenarioProvider (.success [] ⟨204, .ok ""⟩)) 0
        scenarioRequest).outcome
      = .returned (some (NewToolResultError "failed to get user activity: ")) none
    ∧ (handler scenarioHelpers (scenarioProvider (.success [] ⟨204, .ok ""⟩)) 0
        scenarioRequest).outcome
      ≠ .returned (some (NewToolResultError "")) none := by
  decide

/-- C4 (amended): for every transport-successful response whose HTTP status is
not exactly 200 and whose body reads successfully as `B`, the handler returns,
with a nil Go error, a tool-level error result whose text is the fixed prefix
`failed to get user activity: ` followed by `B` verbatim. -/
theorem c4_status_error_text (h : Helpers) (provider : Context → Except GoError (Option Client))
    (ctx : Context) (request : CallToolRequest) (username : String)
    (pagination : PaginationParams) (client : Client) (events : List (Option Event))
    (resp : Response) (B : String)
    (hUser : h.RequiredParam request "username" = .ok username)
    (hPage : h.OptionalPaginationParams request = .ok pagination)
    (hClient : provider ctx = .ok (some client))
    (hList : client.ListEventsPerformedByUser ctx username false
      { Page := pagination.Page, PerPage := pagination.PerPage } = .success events resp)
    (hStatus : resp.StatusCode ≠ 200) (hBody : resp.Body = .ok B) :
    (handler h (some provider) ctx request).outcome
      = .returned
          (some { Content := [{ Type_ := "text", Text := "failed to get user activity: " ++ B }]
                  IsError := true }) none := by
  rw [handler_status_body_ok h provider ctx request username pagination client events resp B
    hUser hPage hClient hList hStatus hBody]
  rfl

/-- C4 (amended), at status 204 with an empty body. -/
theorem c4_status_error_text_witness :
    (handler scenarioHelpers (scenarioProvider (.success [] ⟨204, .ok ""⟩)) 0
        scenarioRequest).outcome
      = .returned
          (some { Content := [{ Type_ := "text", Text := "failed to get user activity: " ++ "" }]
                  IsError := true }) none :=
  c4_status_error_text scenarioHelpers
    (fun _ => .ok (some (scenarioClient (.success [] ⟨204, .ok ""⟩)))) 0 scenarioRequest
    "octocat" { Page := 1, PerPage := 10 } (scenarioClient (.success [] ⟨204, .ok ""⟩))
    [] ⟨204, .ok ""⟩ "" (by decide) (by decide) rfl rfl (by decide) rfl

/-! ### C8: a failure of the list-events call -/

/-- C8: for every validated username `u`, when the list-events call fails the
handler returns, with a nil Go error, the result of the API-error constructor
applied to the context, the message `failed to get activity for user '<u>'`,
the response and the cause; the only external calls of the run are the client
resolution and the list-events call: the body is not read and nothing is
serialized. -/
theorem c8_transport_failure (h : Helpers) (provider : Context → Except GoError (Option Client))
    (ctx : Context) (request : CallToolRequest) (u : String)
    (pagination : PaginationParams) (client : Client) (resp : Option Response)
    (cause : GoError)
    (hUser : h.RequiredParam request "username" = .ok u)
    (hPage : h.OptionalPaginationParams request = .ok pagination)
    (hClient : provider ctx = .ok (some client))
    (hList : client.ListEventsPerformedByUser ctx u false
      { Page := pagination.Page, PerPage := pagination.PerPage } = .failure resp cause) :
    (handler h (some provider) ctx request).outcome
      = .returned
          (some (h.NewGitHubAPIErrorResponse ctx ("failed to get activity for user '" ++ u ++ "'")
            resp cause)) none
    ∧ (handler h (some provider) ctx request).trace
      = [.getClient ctx, .listEventsPerformedByUser ctx u false
          { Page := pagination.Page, PerPage := pagination.PerPage }]
    ∧ Effect.readAll ∉ (handler h (some provider) ctx request).trace
    ∧ Effect.jsonMarshal ∉ (handler h (some provider) ctx request).trace := by
  rw [handler_list_failure h provider ctx request u pagination client resp cause
    hUser hPage hClient hList]
  simp [calledUpToList]

/-- C8, at the scenario request with a client whose call fails without a
response. -/
theorem c8_transport_failure_witness :
    (handler scenarioHelpers (scenarioProvider (.failure none (.external "down"))) 0
        scenarioRequest).outcome
      = .returned
          (some (scenarioAPIError 0 ("failed to get activity for user '" ++ "octocat" ++ "'")
            none (.external "down"))) none
    ∧ (handler scenarioHelpers (scenarioProvider (.failure none (.external "down"))) 0
        scenarioRequest).trace
      = [.getClient 0, .listEventsPerformedByUser 0 "octocat" false { Page := 1, PerPage := 10 }]
    ∧ Effect.readAll ∉ (handler scenarioHelpers
        (scenarioProvider (.failure none (.external "down"))) 0 scenarioRequest).trace
    ∧ Effect.jsonMarshal ∉ (handler scenarioHelpers
        (scenarioProvider (.failure none (.external "down"))) 0 scenarioRequest).trace :=
  c8_transport_failure scenarioHelpers
    (fun _ => .ok (some (scenarioClient (.failure none (.external "down"))))) 0 scenarioRequest
    "octocat" { Page := 1, PerPage := 10 } (scenarioClient (.failure none (.external "down")))
    none (.external "down") (by decide) (by decide) rfl rfl

/-! ### C3: validation failures -/

/-- A request without a string `username` fails `RequiredParam`. -/
theorem requiredParam_error_of_absent (request : CallToolRequest)
    (hBad : usernameAbsentOrNotString request = true) :
    ∃ msg, RequiredParam request "username" = .error msg := by
  unfold usernameAbsentOrNotString at hBad
  unfold RequiredParam
  cases hArg : request.arg "username" with
  | none => exact ⟨_, rfl⟩
  | some v =>
    cases v with
    | str v => simp [hArg] at hBad
    | num n => exact ⟨_, rfl⟩
    | bool b => exact ⟨_, rfl⟩
    | null => exact ⟨_, rfl⟩
    | other => exact ⟨_, rfl⟩

/-- A malformed integer parameter fails `optionalIntParam`. -/
theorem optionalIntParam_error_of_malformed (request : CallToolRequest) (p : String) (d : Int)
    (hBad : malformedInt request p = true) :
    ∃ msg, optionalIntParam request p d = .error msg := by
  unfold malformedInt at hBad
  unfold optionalIntParam
  cases hArg : request.arg p with
  | none => simp [hArg] at hBad
  | some v =>
    cases v with
    | num n => simp [hArg] at hBad
    | str v => exact ⟨_, rfl⟩
    | bool b => exact ⟨_, rfl⟩
    | null => exact ⟨_, rfl⟩
    | other => exact ⟨_, rfl⟩

/-- Malformed pagination parameters fail `OptionalPaginationParams`. -/
theorem paginationParams_error_of_malformed (defaults : PaginationParams)
    (request : CallToolRequest) (hBad : paginationMalformed request = true) :
    ∃ msg, OptionalPaginationParams defaults request = .error msg := by
  unfold OptionalPaginationParams
  cases hPageArg : optionalIntParam request "page" defaults.Page with
  | error e => exact ⟨e, rfl⟩
  | ok page =>
    cases hPerArg : optionalIntParam request "perPage" defaults.PerPage with
    | error e => exact ⟨e, rfl⟩
    | ok perPage =>
      exfalso
      unfold paginationMalformed at hBad
      rcases Bool.or_eq_true _ _ |>.mp hBad with hb | hb
      · obtain ⟨msg, hmsg⟩ := optionalIntParam_error_of_malformed request "page" defaults.Page hb
        rw [hmsg] at hPageArg
        cases hPageArg
      · obtain ⟨msg, hmsg⟩ :=
          optionalIntParam_error_of_malformed request "perPage" defaults.PerPage hb
        rw [hmsg] at hPerArg
        cases hPerArg

/-- C3: with the validation helpers as the spec describes them, for every
request in which `username` is absent or not a string, or in which a pagination
parameter is malformed, and for every client provider (nil included), the
handler returns a non-nil result flagged as error with a nil Go error; its text
is the message of the validation error that `RequiredParam` or
`OptionalPaginationParams` reported; and the run makes no external call at all:
the client provider is not called and no list-events call is made. -/
theorem c3_validation_error (defaults : PaginationParams)
    (apiError : Context → String → Option Response → GoError → CallToolResult)
    (marshalUser : MinimalUser → String) (getClient : GetClientFn) (ctx : Context)
    (request : CallToolRequest)
    (hBad : usernameAbsentOrNotString request = true ∨ paginationMalformed request = true) :
    ∃ msg : String,
      (RequiredParam request "username" = .error msg
        ∨ ((∃ u, RequiredParam request "username" = .ok u)
            ∧ OptionalPaginationParams defaults request = .error msg))
      ∧ handler (specHelpers defaults apiError marshalUser) getClient ctx request
        = { outcome := .returned
              (some { Content := [{ Type_ := "text", Text := msg }], IsError := true }) none
            trace := [] } := by
  cases hReq : RequiredParam request "username" with
  | error msg =>
    exact ⟨msg, Or.inl rfl,
      handler_username_error (specHelpers defaults apiError marshalUser) ctx request getClient
        msg hReq⟩
  | ok u =>
    have hPag : paginationMalformed request = true := by
      rcases hBad with hb | hb
      · obtain ⟨msg, hmsg⟩ := requiredParam_error_of_absent request hb
        rw [hmsg] at hReq
        cases hReq
      · exact hb
    obtain ⟨msg, hmsg⟩ := paginationParams_error_of_malformed defaults request hPag
    exact ⟨msg, Or.inr ⟨⟨u, rfl⟩, hmsg⟩,
      handler_pagination_error (specHelpers defaults apiError marshalUser) ctx request u
        getClient msg hReq hmsg⟩

/-- C3, at a request without `username` and with the nil client provider. -/
theorem c3_validation_error_witness :
    ∃ msg : String,
      (RequiredParam { Arguments := [("page", .num 2)] } "username" = .error msg
        ∨ ((∃ u, RequiredParam { Arguments := [("page", .num 2)] } "username" = .ok u)
            ∧ OptionalPaginationParams { Page := 1, PerPage := 30 }
                { Arguments := [("page", .num 2)] } = .error msg))
      ∧ handler (specHelpers { Page := 1, PerPage := 30 } scenarioAPIError scenarioMarshalUser)
          none 0 { Arguments := [("page", .num 2)] }
        = { outcome := .returned
              (some { Content := [{ Type_ := "text", Text := msg }], IsError := true }) none
            trace := [] } :=
  c3_validation_error { Page := 1, PerPage := 30 } scenarioAPIError scenarioMarshalUser none 0
    { Arguments := [("page", .num 2)] } (Or.inl (by decide))

/-! ### C10: the tool definition -/

/-- C10: for every collaborator set, every client provider (the nil provider
included) and every translation helper `t`, the tool returned by
`GetUserActivity` is named `get_user_activity`; its input schema has a
`username` property of type `string` that is listed as required; its read-only
hint is set to true; and its description is `t` applied to the key
`TOOL_GET_USER_ACTIVITY_DESCRIPTION` and the default text, so that a helper
returning its fallback yields the default text itself. -/
theorem c10_tool_definition (h : Helpers) (getClient : GetClientFn)
    (t : String → String → String) :
    (GetUserActivity h getClient t).1.Name = "get_user_activity"
    ∧ (∃ schema, mapGet (GetUserActivity h getClient t).1.InputSchema.Properties "username"
          = some schema
        ∧ mapGet schema "type" = some (.str "string"))
    ∧ "username" ∈ (GetUserActivity h getClient t).1.InputSchema.Required
    ∧ (GetUserActivity h getClient t).1.Annotations.ReadOnlyHint = some true
    ∧ (GetUserActivity h getClient t).1.Description
        = t "TOOL_GET_USER_ACTIVITY_DESCRIPTION"
            "Get recent activity for a GitHub user. Returns a list of events performed by the user."
    ∧ (GetUserActivity h none (fun _ fallback => fallback)).1.Description
        = "Get recent activity for a GitHub user. Returns a list of events performed by the user."
    := by
  refine ⟨rfl, ⟨_, rfl, rfl⟩, ?_, rfl, rfl, rfl⟩
  show "username" ∈ ["username"]
  simp

/-! ### C7: the layout of `created_at` -/

/-- The character `utod d` is a decimal digit when `d < 10`. -/
theorem isDigit_utod (d : Nat) (hd : d < 10) : isDigit (utod d) = true := by
  interval_cases d <;> decide

/-- The four-digit fast path of `appendInt`. -/
theorem appendInt_four (x : Int) (h0 : 0 ≤ x) (h1 : x ≤ 9999) :
    appendInt x 4
      = [utod (x.natAbs / 1000), utod (x.natAbs / 100 % 10), utod (x.natAbs / 10 % 10),
          utod (x.natAbs % 10)] := by
  have hlt : x.natAbs < 10000 := by omega
  have hneg : ¬ x < 0 := by omega
  simp [appendInt, hlt, hneg]

/-- The two-digit fast path of `appendInt`. -/
theorem appendInt_two (n : Nat) (hn : n < 100) :
    appendInt (n : Int) 2 = [utod (n / 10), utod (n % 10)] := by
  have hneg : ¬ (n : Int) < 0 := by omega
  simp [appendInt, hn, hneg]

/-- The text written by `Time.Format` for a year from 0 to 9999 matches the
pattern. -/
theorem format_matches (t : Time) (h0 : 0 ≤ t.year) (h1 : t.year ≤ 9999) :
    matchesTimestampPattern t.Format = true := by
  have hy := appendInt_four t.year h0 h1
  have hmo := appendInt_two (t.monthIdx.val + 1) (by omega)
  have hd := appendInt_two (t.dayIdx.val + 1) (by omega)
  have hh := appendInt_two t.hour.val (by omega)
  have hmi := appendInt_two t.minute.val (by omega)
  have hs := appendInt_two t.second.val (by omega)
  have hdig : ∀ d, d < 10 → (if isDigit (utod d) = true then '0' else utod d) = '0' := by
    intro d hd
    rw [if_pos (isDigit_utod d hd)]
  have e1 := hdig (t.year.natAbs / 1000) (by omega)
  have e2 := hdig (t.year.natAbs / 100 % 10) (by omega)
  have e3 := hdig (t.year.natAbs / 10 % 10) (by omega)
  have e4 := hdig (t.year.natAbs % 10) (by omega)
  have e5 := hdig ((t.monthIdx.val + 1) / 10) (by omega)
  have e6 := hdig ((t.monthIdx.val + 1) % 10) (by omega)
  have e7 := hdig ((t.dayIdx.val + 1) / 10) (by omega)
  have e8 := hdig ((t.dayIdx.val + 1) % 10) (by omega)
  have e9 := hdig (t.hour.val / 10) (by omega)
  have e10 := hdig (t.hour.val % 10) (by omega)
  have e11 := hdig (t.minute.val / 10) (by omega)
  have e12 := hdig (t.minute.val % 10) (by omega)
  have e13 := hdig (t.second.val / 10) (by omega)
  have e14 := hdig (t.second.val % 10) (by omega)
  unfold matchesTimestampPattern Time.Format
  rw [hy]
  rw [hmo, hd, hh, hmi, hs]
  simp only [List.cons_append, List.nil_append, List.map_cons, List.map_nil, e1, e2, e3, e4, e5,
    e6, e7, e8, e9, e10, e11, e12, e13, e14]
  decide

/-- C7 (as stated, refuted): an event created in the year 10000 is projected
to `10000-01-01T00:00:00Z`, and one created in the year -1 to
`-0001-01-01T00:00:00Z`; both have 21 characters and do not match the pattern. -/
theorem c7_year_outside_four_digits :
    (projectEvent (some (scenarioEvent "1" (some (newYear 10000)) none))).map (·.CreatedAt)
      = some "10000-01-01T00:00:00Z"
    ∧ matchesTimestampPattern "10000-01-01T00:00:00Z" = false
    ∧ (projectEvent (some (scenarioEvent "1" (some (newYear (-1))) none))).map (·.CreatedAt)
      = some "-0001-01-01T00:00:00Z"
    ∧ matchesTimestampPattern "-0001-01-01T00:00:00Z" = false := by
  decide

/-- C7 (amended): for every received event whose creation timestamp has a year
from 0 to 9999 (whatever its zone offset), and for every event without a
timestamp, the `created_at` string of the projected `MinimalEvent` matches the
pattern `YYYY-MM-DDTHH:MM:SSZ` and has 20 characters. -/
theorem c7_created_at_layout (event : Event)
    (hYear : ∀ ts, event.CreatedAt = some ts → 0 ≤ ts.Time.year ∧ ts.Time.year ≤ 9999) :
    ∃ me, projectEvent (some event) = some me
      ∧ matchesTimestampPattern me.CreatedAt = true
      ∧ me.CreatedAt.length = 20 := by
  have hy : 0 ≤ event.GetCreatedAt.Time.year ∧ event.GetCreatedAt.Time.year ≤ 9999 := by
    unfold Event.GetCreatedAt
    cases hc : event.CreatedAt with
    | none => exact ⟨by decide, by decide⟩
    | some ts => exact hYear ts hc
  have hm := format_matches event.GetCreatedAt.Time hy.1 hy.2
  refine ⟨_, rfl, hm, ?_⟩
  have hlen := congrArg List.length (of_decide_eq_true hm)
  rw [List.length_map] at hlen
  exact hlen.trans (by decide)

/-- C7 (amended), at an event created on 2024-12-31 23:59:58 in a zone two
hours east of UTC. -/
theorem c7_created_at_layout_witness :
    ∃ me, projectEvent (some (scenarioEvent "1"
        (some { Time := { year := 2024, monthIdx := 11, dayIdx := 30, hour := 23, minute := 59,
                          second := 58, offset := 7200 } }) none)) = some me
      ∧ matchesTimestampPattern me.CreatedAt = true
      ∧ me.CreatedAt.length = 20 :=
  c7_created_at_layout _ (by
    intro ts hts
    cases hts
    exact ⟨by decide, by decide⟩)

/-! ### C6: events without a raw payload -/

/-- C6: whenever the handler, on a status-200 response, returns its text
result, the received slice holds no nil element, the text is the JSON array of
exactly the objects the encoder writes for the projections of the received
events, in order, and for every received event: if the event carries no raw
payload (`RawPayload` is nil), its object consists of exactly the five members
`id`, `type`, `actor`, `repo`, `created_at` with the values of the projection,
so there is no `payload` member at all, neither `null` nor an empty object;
conversely, if its object has a `payload` member then the event carried a raw
payload. -/
theorem c6_payload_only_when_present (h : Helpers)
    (provider : Context → Except GoError (Option Client))
    (ctx : Context) (request : CallToolRequest) (username : String)
    (pagination : PaginationParams) (client : Client) (events : List (Option Event))
    (resp : Response) (r : String)
    (hUser : h.RequiredParam request "username" = .ok username)
    (hPage : h.OptionalPaginationParams request = .ok pagination)
    (hClient : provider ctx = .ok (some client))
    (hList : client.ListEventsPerformedByUser ctx username false
      { Page := pagination.Page, PerPage := pagination.PerPage } = .success events resp)
    (hStatus : resp.StatusCode = 200)
    (hOut : (handler h (some provider) ctx request).outcome
      = .returned (some (NewToolResultText r)) none) :
    ∃ (evs : List Event) (objs : List JSONMembers),
      events = evs.map some
      ∧ encodeEvents h.marshalMinimalUser (evs.map minimalEventOf) = .ok objs
      ∧ jsonMarshal h.marshalMinimalUser (evs.map minimalEventOf) = .ok r
      ∧ r = renderArray (objs.map renderObject)
      ∧ objs.length = evs.length
      ∧ ∀ (i : Nat) (event : Event), evs[i]? = some event →
          ∃ ms, objs[i]? = some ms
            ∧ (minimalEventOf event).members h.marshalMinimalUser = .ok ms
            ∧ (event.RawPayload = none →
                ms = (minimalEventOf event).fixedMembers h.marshalMinimalUser
                ∧ renderObject ms
                    = renderObject
                        [("id", String.mk (appendString event.GetID)),
                         ("type", String.mk (appendString event.GetType)),
                         ("actor", h.marshalMinimalUser
                            { Login := User.GetLogin event.Actor
                              ID := User.GetID event.Actor
                              AvatarURL := User.GetAvatarURL event.Actor
                              ProfileURL := User.GetURL event.Actor }),
                         ("repo", renderObject
                            [("id", String.mk (appendInt64 (Repository.GetID event.Repo))),
                             ("name", String.mk (appendString (Repository.GetName event.Repo))),
                             ("url", String.mk (appendString (Repository.GetURL event.Repo)))]),
                         ("created_at",
                            String.mk (appendString event.GetCreatedAt.Time.Format))]
                ∧ memberNames ms = ["id", "type", "actor", "repo", "created_at"]
                ∧ "payload" ∉ memberNames ms)
            ∧ ("payload" ∈ memberNames ms → event.RawPayload ≠ none) := by
  obtain ⟨evs, objs, hEvs, hEnc, hr⟩ :=
    handler_text_output h provider ctx request username pagination client events resp r
      hUser hPage hClient hList hStatus hOut
  obtain ⟨hlen, hidx⟩ := encodeEvents_ok h.marshalMinimalUser _ objs hEnc
  refine ⟨evs, objs, hEvs, hEnc, by simp [jsonMarshal, hEnc, hr], hr, by simpa using hlen, ?_⟩
  intro i event hi
  obtain ⟨ms, hms, hmem⟩ := hidx i (minimalEventOf event) (by rw [List.getElem?_map, hi]; rfl)
  have hfixed : event.RawPayload = none →
      ms = (minimalEventOf event).fixedMembers h.marshalMinimalUser := by
    intro hraw
    rcases members_payload h.marshalMinimalUser _ ms hmem with ⟨_, hfix⟩ | ⟨p, v, hp, _⟩
    · exact hfix
    · rw [minimalEventOf_payload, hraw] at hp
      cases hp
  have hnames : event.RawPayload = none →
      memberNames ms = ["id", "type", "actor", "repo", "created_at"] := by
    intro hraw
    rw [hfixed hraw]
    rfl
  refine ⟨ms, hms, hmem, fun hraw => ⟨hfixed hraw, ?_, hnames hraw, ?_⟩, ?_⟩
  · rw [hfixed hraw]
    rfl
  · rw [hnames hraw]
    decide
  · intro hin hraw
    rw [hnames hraw] at hin
    revert hin
    decide

set_option maxRecDepth 100000 in
/-- C6, at the scenario of section 8: three events, the first with payload
`{"ref":"main"}`, the other two without one. -/
theorem c6_payload_only_when_present_witness :
    ∃ (evs : List Event) (objs : List JSONMembers),
      scenarioEvents.map some = evs.map some
      ∧ encodeEvents scenarioHelpers.marshalMinimalUser (evs.map minimalEventOf) = .ok objs
      ∧ jsonMarshal scenarioHelpers.marshalMinimalUser (evs.map minimalEventOf) = .ok scenarioText
      ∧ scenarioText = renderArray (objs.map renderObject)
      ∧ objs.length = evs.length
      ∧ ∀ (i : Nat) (event : Event), evs[i]? = some event →
          ∃ ms, objs[i]? = some ms
            ∧ (minimalEventOf event).members scenarioHelpers.marshalMinimalUser = .ok ms
            ∧ (event.RawPayload = none →
                ms = (minimalEventOf event).fixedMembers scenarioHelpers.marshalMinimalUser
                ∧ renderObject ms
                    = renderObject
                        [("id", String.mk (appendString event.GetID)),
                         ("type", String.mk (appendString event.GetType)),
                         ("actor", scenarioHelpers.marshalMinimalUser
                            { Login := User.GetLogin event.Actor
                              ID := User.GetID event.Actor
                              AvatarURL := User.GetAvatarURL event.Actor
                              ProfileURL := User.GetURL event.Actor }),
                         ("repo", renderObject
                            [("id", String.mk (appendInt64 (Repository.GetID event.Repo))),
                             ("name", String.mk (appendString (Repository.GetName event.Repo))),
                             ("url", String.mk (appendString (Repository.GetURL event.Repo)))]),
                         ("created_at",
                            String.mk (appendString event.GetCreatedAt.Time.Format))]
                ∧ memberNames ms = ["id", "type", "actor", "repo", "created_at"]
                ∧ "payload" ∉ memberNames ms)
            ∧ ("payload" ∈ memberNames ms → event.RawPayload ≠ none) :=
  c6_payload_only_when_present scenarioHelpers
    (fun _ => .ok (some (scenarioClient scenarioResult)))
    0 scenarioRequest "octocat" { Page := 1, PerPage := 10 } (scenarioClient scenarioResult)
    (scenarioEvents.map some) { StatusCode := 200, Body := .ok "" } scenarioText
    (by decide) (by decide) rfl rfl (by decide) (by decide)

/-! ### C1: one object per event, in order -/

/-- C1 (as stated, refuted): on a status-200 response whose one event carries
the raw payload `{`, which is not valid JSON, `json.Marshal` fails and the
handler returns the hard error `failed to marshal response` with a nil result;
on a status-200 response whose one element is a nil event pointer the handler
panics. Neither run returns a text result. -/
theorem c1_no_text_result :
    (handler scenarioHelpers
        (scenarioProvider (.success [some (scenarioEvent "1" none (some "\x7b"))] ⟨200, .ok ""⟩))
        0 scenarioRequest).outcome
      = .returned none
          (some (.wrapped "failed to marshal response" (.jsonMarshaler "json.RawMessage")))
    ∧ (handler scenarioHelpers (scenarioProvider (.success [none] ⟨200, .ok ""⟩)) 0
        scenarioRequest).outcome
      = .panicked := by
  decide

/-- C1 (amended): for every username that passes validation and every list of
N non-nil events, each of whose raw payloads is absent, empty or valid JSON,
returned by a transport-successful call with HTTP status 200, the handler
returns, with a nil Go error, a text result that is a JSON array of exactly N
objects, where the i-th object is the encoding of the projection (id, type,
actor, repo, created_at, payload) of the i-th received event: no event is
dropped, duplicated or reordered. -/
theorem c1_one_object_per_event (h : Helpers) (provider : Context → Except GoError (Option Client))
    (ctx : Context) (request : CallToolRequest) (username : String)
    (pagination : PaginationParams) (client : Client) (evs : List Event)
    (resp : Response)
    (hUser : h.RequiredParam request "username" = .ok username)
    (hPage : h.OptionalPaginationParams request = .ok pagination)
    (hClient : provider ctx = .ok (some client))
    (hList : client.ListEventsPerformedByUser ctx username false
      { Page := pagination.Page, PerPage := pagination.PerPage } = .success (evs.map some) resp)
    (hStatus : resp.StatusCode = 200)
    (hPayload : ∀ event ∈ evs, payloadEncodable event = true) :
    ∃ objs : List JSONMembers,
      (handler h (some provider) ctx request).outcome
        = .returned
            (some { Content := [{ Type_ := "text", Text := renderArray (objs.map renderObject) }]
                    IsError := false }) none
      ∧ objs.length = evs.length
      ∧ ∀ (i : Nat) (event : Event), evs[i]? = some event →
          ∃ ms, objs[i]? = some ms
            ∧ (minimalEventOf event).members h.marshalMinimalUser = .ok ms := by
  have hProj := projectEvents_map_some evs
  obtain ⟨objs, hEnc⟩ := encodeEvents_of_all_ok h.marshalMinimalUser (evs.map minimalEventOf) (by
    intro me hme
    obtain ⟨event, hev, rfl⟩ := List.mem_map.mp hme
    exact members_ok_of_encodable h.marshalMinimalUser event (hPayload event hev))
  have hM : jsonMarshal h.marshalMinimalUser (evs.map minimalEventOf)
      = .ok (renderArray (objs.map renderObject)) := by
    simp [jsonMarshal, hEnc]
  obtain ⟨hlen, hidx⟩ := encodeEvents_ok h.marshalMinimalUser _ objs hEnc
  refine ⟨objs, ?_, by simpa using hlen, ?_⟩
  · rw [handler_success h provider ctx request username pagination client (evs.map some)
      resp _ _ hUser hPage hClient hList hStatus hProj hM]
    rfl
  · intro i event hi
    exact hidx i _ (by rw [List.getElem?_map, hi]; rfl)

set_option maxRecDepth 100000 in
/-- C1 (amended), at the scenario of section 8: three events, the first with
payload `{"ref":"main"}`. -/
theorem c1_one_object_per_event_witness :
    ∃ objs : List JSONMembers,
      (handler scenarioHelpers (scenarioProvider scenarioResult) 0 scenarioRequest).outcome
        = .returned
            (some { Content := [{ Type_ := "text", Text := renderArray (objs.map renderObject) }]
                    IsError := false }) none
      ∧ objs.length = scenarioEvents.length
      ∧ ∀ (i : Nat) (event : Event), scenarioEvents[i]? = some event →
          ∃ ms, objs[i]? = some ms
            ∧ (minimalEventOf event).members scenarioHelpers.marshalMinimalUser = .ok ms :=
  c1_one_object_per_event scenarioHelpers (fun _ => .ok (some (scenarioClient scenarioResult)))
    0 scenarioRequest "octocat" { Page := 1, PerPage := 10 } (scenarioClient scenarioResult)
    scenarioEvents { StatusCode := 200, Body := .ok "" }
    (by decide) (by decide) rfl rfl (by decide) (by decide)

/-! ### C9: result or error -/

set_option maxRecDepth 100000 in
/-- C5 (as stated, refuted): the raw payload `{"ref": "main"}`, with a space
after the colon, is written as `{"ref":"main"}`, which is a different byte
string; the raw payload `{"a":"<b>"}` is written with `<` and `>` replaced by
the escapes `\u003c` and `\u003e`; and a raw payload that is non-nil but empty
is not written at all. -/
theorem c5_payload_is_rewritten :
    (handler scenarioHelpers
        (scenarioProvider (.success
          [some (scenarioEvent "1" none (some "\x7b\"ref\": \"main\"\x7d"))] ⟨200, .ok ""⟩))
        0 scenarioRequest).outcome
      = .returned (some (NewToolResultText
          "[\x7b\"id\":\"1\",\"type\":\"PushEvent\",\"actor\":\x7b\"login\":\"octocat\",\"id\":1,\"avatarURL\":\"\",\"profileURL\":\"\"\x7d,\"repo\":\x7b\"id\":2,\"name\":\"octocat/hello\",\"url\":\"\"\x7d,\"created_at\":\"0001-01-01T00:00:00Z\",\"payload\":\x7b\"ref\":\"main\"\x7d\x7d]"))
          none
    ∧ ((minimalEventOf (scenarioEvent "1" none (some "\x7b\"ref\": \"main\"\x7d"))).members
          scenarioMarshalUser).map (mapGet · "payload")
        = .ok (some "\x7b\"ref\":\"main\"\x7d")
    ∧ "\x7b\"ref\":\"main\"\x7d" ≠ "\x7b\"ref\": \"main\"\x7d"
    ∧ ((minimalEventOf (scenarioEvent "1" none (some "\x7b\"a\":\"<b>\"\x7d"))).members
          scenarioMarshalUser).map (mapGet · "payload")
        = .ok (some "\x7b\"a\":\"\\u003cb\\u003e\"\x7d")
    ∧ ((minimalEventOf (scenarioEvent "1" none (some ""))).members
          scenarioMarshalUser).map (mapGet · "payload")
        = .ok none := by
  decide

/-- C5 (amended): whenever the handler, on a status-200 response, returns its
text result, then for every received event that carries a non-empty raw payload
`P` the corresponding object of the output has a `payload` member, and its bytes
are the compact form of `P`: the bytes of `P` with the whitespace outside string
literals removed and each of `<`, `>`, `&`, U+2028, U+2029 replaced by its
`\u` escape. The member is identical to `P`, byte for byte, when `P` is already
in compact form, as is the payload `{"ref":"main"}` of the scenario. -/
theorem c5_payload_compact_form (h : Helpers) (provider : Context → Except GoError (Option Client))
    (ctx : Context) (request : CallToolRequest) (username : String)
    (pagination : PaginationParams) (client : Client) (events : List (Option Event))
    (resp : Response) (r : String)
    (hUser : h.RequiredParam request "username" = .ok username)
    (hPage : h.OptionalPaginationParams request = .ok pagination)
    (hClient : provider ctx = .ok (some client))
    (hList : client.ListEventsPerformedByUser ctx username false
      { Page := pagination.Page, PerPage := pagination.PerPage } = .success events resp)
    (hStatus : resp.StatusCode = 200)
    (hOut : (handler h (some provider) ctx request).outcome
      = .returned (some (NewToolResultText r)) none) :
    ∃ objs : List JSONMembers,
      r = renderArray (objs.map renderObject)
      ∧ objs.length = events.length
      ∧ ∀ (i : Nat) (event : Event) (P : String), events[i]? = some (some event) →
          event.RawPayload = some P → P ≠ "" →
          ∃ ms, objs[i]? = some ms
            ∧ mapGet ms "payload" = some (String.mk (compactForm .outside P.data))
            ∧ (isCompact P = true → mapGet ms "payload" = some P) := by
  obtain ⟨evs, objs, hEvs, hEnc, hr⟩ :=
    handler_text_output h provider ctx request username pagination client events resp r
      hUser hPage hClient hList hStatus hOut
  obtain ⟨hlen, hidx⟩ := encodeEvents_ok h.marshalMinimalUser _ objs hEnc
  refine ⟨objs, hr, by simp [hlen, hEvs], ?_⟩
  intro i event P hi hraw hne
  have hi2 : (evs.map minimalEventOf)[i]? = some (minimalEventOf event) := by
    rw [hEvs, List.getElem?_map] at hi
    rw [List.getElem?_map]
    cases hev : evs[i]? with
    | none => simp [hev] at hi
    | some e0 =>
      simp only [hev, Option.map_some', Option.some.injEq] at hi
      simp [hi]
  obtain ⟨ms, hms, hmem⟩ := hidx i _ hi2
  have hget : mapGet ms "payload" = some (String.mk (compactForm .outside P.data)) := by
    rcases members_payload h.marshalMinimalUser _ ms hmem with ⟨hp, _⟩ | ⟨p, v, hp, _, hc, hfix⟩
    · rw [minimalEventOf_payload, hraw] at hp
      rcases hp with hp | hp
      · cases hp
      · exact absurd (Option.some.inj hp) hne
    · rw [minimalEventOf_payload, hraw] at hp
      cases hp
      rw [hfix, appendCompact_eq_compactForm P v hc]
      rfl
  refine ⟨ms, hms, hget, ?_⟩
  intro hcompact
  rw [hget]
  unfold isCompact at hcompact
  rw [of_decide_eq_true hcompact]

set_option maxRecDepth 100000 in
/-- C5 (amended), at the scenario of section 8: the payload `{"ref":"main"}`
of the first event is in compact form, and the first object of the output
carries it unchanged. -/
theorem c5_payload_compact_form_witness :
    isCompact "\x7b\"ref\":\"main\"\x7d" = true
    ∧ ∃ objs : List JSONMembers,
      scenarioText = renderArray (objs.map renderObject)
      ∧ objs.length = (scenarioEvents.map some).length
      ∧ ∀ (i : Nat) (event : Event) (P : String),
          (scenarioEvents.map some)[i]? = some (some event) →
          event.RawPayload = some P → P ≠ "" →
          ∃ ms, objs[i]? = some ms
            ∧ mapGet ms "payload" = some (String.mk (compactForm .outside P.data))
            ∧ (isCompact P = true → mapGet ms "payload" = some P) :=
  ⟨by decide,
    c5_payload_compact_form scenarioHelpers (fun _ => .ok (some (scenarioClient scenarioResult)))
      0 scenarioRequest "octocat" { Page := 1, PerPage := 10 } (scenarioClient scenarioResult)
      (scenarioEvents.map some) { StatusCode := 200, Body := .ok "" } scenarioText
      (by decide) (by decide) rfl rfl (by decide) (by decide)⟩

end GithubMcp
